import Mathlib

/-
Shallow embedding of the rental booking engine of this repository
(src/models/rental_booking.py, src/models/product.py, src/models/stock_picking.py).

Model stock.rental.booking / stock.rental.booking.line:
  a booking owns lines; a line's date_start, date_end, state and company are
  stored related fields of its booking.  Datetimes are modelled as Int,
  quantities (Odoo Float) as Int, an exact-arithmetic stand-in that keeps
  every sum and comparison of the source.  External stock data (stock.quant,
  stock.location, stock.warehouse) is a fixed read-only environment, matching
  the spec's treatment of stock as an external collaborator; the fixedness is
  exact for this source because its only quant-mutating path, the
  action_assign call of picking creation, sits behind a Picking.create whose
  field names (rental_booking_id, rental_direction) do not exist on the
  stock.picking model of this module (which defines tlrm_booking_id and
  tlrm_direction), so that create raises first — modelled by
  startPickingRaises / returnPickingRaises below.
-/

deriving instance DecidableEq for Except

namespace TLRental

inductive BState
  | draft
  | reserved
  | ongoing
  | finished
  | returned
  | cancelled
deriving DecidableEq, Repr

inductive LUsage
  | internal
  | customer
  | supplier
  | viewLoc
  | transit
deriving DecidableEq, Repr

structure Quant where
  productId : Nat
  companyId : Nat
  locationId : Nat
  quantity : Int
  reservedQuantity : Int
deriving DecidableEq, Repr

structure StockLocation where
  id : Nat
  usage : LUsage
  parentPath : List Nat
deriving DecidableEq, Repr

structure Warehouse where
  id : Nat
  lotStockId : Option Nat
  intTypeId : Option Nat
deriving DecidableEq, Repr

structure Env where
  quants : List Quant
  locations : List StockLocation
  warehouses : List Warehouse
deriving DecidableEq, Repr

structure RBooking where
  id : Nat
  companyId : Nat
  projectId : Option Nat
  dateStart : Option Int
  dateEnd : Option Int
  state : BState
deriving DecidableEq, Repr

structure RLine where
  id : Nat
  bookingId : Nat
  productId : Option Nat
  quantity : Int
  sourceWarehouseId : Option Nat
  rentalWarehouseId : Option Nat
deriving DecidableEq, Repr

structure Sys where
  bookings : List RBooking
  lines : List RLine
deriving DecidableEq, Repr

def emptySys : Sys := ⟨[], []⟩

def findBooking (s : Sys) (bid : Nat) : Option RBooking :=
  s.bookings.find? (fun b => decide (b.id = bid))

def findLocation (env : Env) (lid : Nat) : Option StockLocation :=
  env.locations.find? (fun loc => decide (loc.id = lid))

def findWarehouse (env : Env) (wid : Nat) : Option Warehouse :=
  env.warehouses.find? (fun wh => decide (wh.id = wid))

/-- Stored related fields of a line (date_start, date_end, state, company_id
read through booking_id). -/
def lineBooking (s : Sys) (l : RLine) : Option RBooking :=
  findBooking s l.bookingId

def lineState (s : Sys) (l : RLine) : Option BState :=
  (lineBooking s l).map (·.state)

def lineCompany (s : Sys) (l : RLine) : Option Nat :=
  (lineBooking s l).map (·.companyId)

def lineDateStart (s : Sys) (l : RLine) : Option Int :=
  (lineBooking s l).bind (·.dateStart)

def lineDateEnd (s : Sys) (l : RLine) : Option Int :=
  (lineBooking s l).bind (·.dateEnd)

/-- Computed source_location_id of a line: source_warehouse_id.lot_stock_id. -/
def sourceLocationId (env : Env) (l : RLine) : Option Nat :=
  l.sourceWarehouseId.bind (fun wid => (findWarehouse env wid).bind (·.lotStockId))

/-- Domain operator child_of on locations, via the stored parent path. -/
def locChildOf (env : Env) (lid : Nat) (ancestorId : Nat) : Bool :=
  match findLocation env lid with
  | some loc => decide (ancestorId ∈ loc.parentPath)
  | none => false

def locInternal (env : Env) (lid : Nat) : Bool :=
  match findLocation env lid with
  | some loc => decide (loc.usage = LUsage.internal)
  | none => false

/-- Quant domain of _check_line_availability: same product and company,
location child_of the line's source location when set, else any internal
location. -/
def quantInScope (env : Env) (pid cid : Nat) (srcLoc : Option Nat) (q : Quant) : Bool :=
  decide (q.productId = pid) && decide (q.companyId = cid) &&
    (match srcLoc with
     | some locId => locChildOf env q.locationId locId
     | none => locInternal env q.locationId)

def scopeOnHand (env : Env) (pid cid : Nat) (srcLoc : Option Nat) : Int :=
  ((env.quants.filter (quantInScope env pid cid srcLoc)).map (·.quantity)).sum

def scopeReserved (env : Env) (pid cid : Nat) (srcLoc : Option Nat) : Int :=
  ((env.quants.filter (quantInScope env pid cid srcLoc)).map (·.reservedQuantity)).sum

/-- base_capacity of _check_line_availability: read_group sum of quantity
minus sum of reserved_quantity over the quant domain (0 when no quant
matches, since both sums are then empty). -/
def baseCapacityOf (env : Env) (pid cid : Nat) (srcLoc : Option Nat) : Int :=
  scopeOnHand env pid cid srcLoc - scopeReserved env pid cid srcLoc

/-- Search domain of _check_line_availability over existing lines:
id different from the candidate, same product, same company, state in
[reserved, ongoing], date_start < candidate date_end, date_end > candidate
date_start, and same source warehouse when the candidate has one. -/
def overlapsDemand (s : Sys) (candId pid cid : Nat) (cs ce : Int)
    (srcWh : Option Nat) (other : RLine) : Bool :=
  decide (other.id ≠ candId) &&
  decide (other.productId = some pid) &&
  decide (lineCompany s other = some cid) &&
  (match lineState s other with
   | some BState.reserved => true
   | some BState.ongoing => true
   | _ => false) &&
  (match lineDateStart s other, lineDateEnd s other with
   | some os, some oe => decide (os < ce) && decide (oe > cs)
   | _, _ => false) &&
  (match srcWh with
   | some wid => decide (other.sourceWarehouseId = some wid)
   | none => true)

/-- current_booked_qty: sum of quantities of the lines matched by the search
domain. -/
def committedQty (s : Sys) (candId pid cid : Nat) (cs ce : Int)
    (srcWh : Option Nat) : Int :=
  ((s.lines.filter (overlapsDemand s candId pid cid cs ce srcWh)).map (·.quantity)).sum

/-- Errors raised by _check_line_availability.  The noStock constructor is
the distinct no-available-stock ValidationError; insufficient carries the
values the not-enough-availability message reports: available capacity,
already booked quantity, requested quantity. -/
inductive CheckErr
  | noStock (pid : Nat)
  | insufficient (pid : Nat) (available committed requested : Int)
deriving DecidableEq, Repr

/-- Embedding of StockRentalBookingLine._check_line_availability for one line:
skip when product or either date is missing, skip when quantity is
nonpositive, fail noStock when the base capacity is nonpositive, fail
insufficient when booked-overlapping plus own quantity exceeds it. -/
def checkLineAvailability (env : Env) (s : Sys) (l : RLine) : Except CheckErr Unit :=
  match lineBooking s l with
  | none => Except.ok ()
  | some b =>
    match l.productId, b.dateStart, b.dateEnd with
    | some pid, some ds, some de =>
      if l.quantity ≤ 0 then Except.ok ()
      else
        let base := baseCapacityOf env pid b.companyId (sourceLocationId env l)
        if base ≤ 0 then Except.error (CheckErr.noStock pid)
        else
          let committed := committedQty s l.id pid b.companyId ds de l.sourceWarehouseId
          if committed + l.quantity > base then
            Except.error (CheckErr.insufficient pid base committed l.quantity)
          else Except.ok ()
    | _, _, _ => Except.ok ()

/-- States for which _constrains_check_availability re-runs the availability
check on a line. -/
def triggerState (st : BState) : Bool :=
  match st with
  | BState.reserved => true
  | BState.ongoing => true
  | BState.finished => true
  | _ => false

/-- One firing of the constraint for one line. -/
def constraintCheckLine (env : Env) (s : Sys) (l : RLine) : Except CheckErr Unit :=
  match lineState s l with
  | some st => if triggerState st then checkLineAvailability env s l else Except.ok ()
  | none => Except.ok ()

def checkLines (env : Env) (s : Sys) : List RLine → Except CheckErr Unit
  | [] => Except.ok ()
  | l :: rest =>
    match constraintCheckLine env s l with
    | Except.error e => Except.error e
    | Except.ok _ => checkLines env s rest

/-- ValidationError cases of action_confirm, in raise order. -/
inductive VErr
  | startRequired
  | endRequired
  | startAfterEnd
  | projectRequired
  | lineProductRequired
  | lineWarehousesRequired
deriving DecidableEq, Repr

inductive Err
  | notFound
  | validation (e : VErr)
  | availability (e : CheckErr)
  | unknownPickingField
deriving DecidableEq, Repr

def linesOfBooking (s : Sys) (bid : Nat) : List RLine :=
  s.lines.filter (fun l => decide (l.bookingId = bid))

/-- Per-line loop of action_confirm: each line must have a product and both
warehouses, then _check_line_availability runs for it (in the pre-transition
state). -/
def confirmValidateLines (env : Env) (s : Sys) : List RLine → Except Err Unit
  | [] => Except.ok ()
  | l :: rest =>
    if l.productId = none then Except.error (Err.validation VErr.lineProductRequired)
    else if l.sourceWarehouseId = none ∨ l.rentalWarehouseId = none then
      Except.error (Err.validation VErr.lineWarehousesRequired)
    else
      match checkLineAvailability env s l with
      | Except.error e => Except.error (Err.availability e)
      | Except.ok _ => confirmValidateLines env s rest

/-- One line of _create_start_picking / _create_return_picking that reaches
Picking.create: it survives the per-line filters (product set, positive
quantity, both warehouses set) and its warehouse pair survives the group
filters (both lot stock locations resolve, and the picking type — the
source warehouse's internal type for the start picking, the rental
warehouse's for the return picking — is set). -/
def linePickingGroupSurvives (env : Env) (fromSource : Bool) (l : RLine) : Bool :=
  decide (l.productId ≠ none) && decide (0 < l.quantity) &&
    (match l.sourceWarehouseId, l.rentalWarehouseId with
     | some sw, some rw =>
       (match findWarehouse env sw, findWarehouse env rw with
        | some w1, some w2 =>
          decide (w1.lotStockId ≠ none) && decide (w2.lotStockId ≠ none) &&
            decide ((if fromSource then w1.intTypeId else w2.intTypeId) ≠ none)
        | _, _ => false)
     | _, _ => false)

/-- Embedding of _create_start_picking up to its effect on the action: the
picking_vals it hands to Picking.create name the fields rental_booking_id
and rental_direction, which the stock.picking model of this module does not
define (stock_picking.py declares tlrm_booking_id and tlrm_direction), so
reaching the create raises a ValueError and aborts the action; groups whose
locations or picking type are missing are skipped before the create, and
the raise happens before action_assign, so the environment's stock quants
are never mutated by this module. -/
def startPickingRaises (env : Env) (s : Sys) (bid : Nat) : Bool :=
  (linesOfBooking s bid).any (linePickingGroupSurvives env true)

/-- Embedding of _create_return_picking the same way; its picking type comes
from the rental warehouse. -/
def returnPickingRaises (env : Env) (s : Sys) (bid : Nat) : Bool :=
  (linesOfBooking s bid).any (linePickingGroupSurvives env false)

/-- Write a new state on one booking record. -/
def setBookingState (s : Sys) (bid : Nat) (ns : BState) : Sys :=
  { s with
    bookings := s.bookings.map (fun b => if b.id = bid then { b with state := ns } else b) }

/-- Writing booking.state updates the stored related state of its lines and
fires _constrains_check_availability on them; a raised check aborts the
(transactional) write. -/
def applyStateChange (env : Env) (s : Sys) (bid : Nat) (ns : BState) : Except Err Sys :=
  let s' := setBookingState s bid ns
  match checkLines env s' (linesOfBooking s' bid) with
  | Except.error e => Except.error (Err.availability e)
  | Except.ok _ => Except.ok s'

/-- Embedding of StockRentalBooking.action_confirm: header validations, then
the per-line loop, then _create_start_picking (which raises on reaching
Picking.create, see startPickingRaises), then the state write to reserved
with its constraint re-check. -/
def actionConfirm (env : Env) (s : Sys) (bid : Nat) : Except Err Sys :=
  match findBooking s bid with
  | none => Except.error Err.notFound
  | some b =>
    match b.dateStart with
    | none => Except.error (Err.validation VErr.startRequired)
    | some ds =>
      match b.dateEnd with
      | none => Except.error (Err.validation VErr.endRequired)
      | some de =>
        if ds > de then Except.error (Err.validation VErr.startAfterEnd)
        else if b.projectId = none then Except.error (Err.validation VErr.projectRequired)
        else
          match confirmValidateLines env s (linesOfBooking s bid) with
          | Except.error e => Except.error e
          | Except.ok _ =>
            if startPickingRaises env s bid then Except.error Err.unknownPickingField
            else applyStateChange env s bid BState.reserved

/-- Embedding of action_mark_ongoing: no state guard in the source, only the
constraint that fires on the state write. -/
def actionMarkOngoing (env : Env) (s : Sys) (bid : Nat) : Except Err Sys :=
  match findBooking s bid with
  | none => Except.error Err.notFound
  | some _ => applyStateChange env s bid BState.ongoing

def actionFinish (env : Env) (s : Sys) (bid : Nat) : Except Err Sys :=
  match findBooking s bid with
  | none => Except.error Err.notFound
  | some _ => applyStateChange env s bid BState.finished

/-- Embedding of action_return: _create_return_picking first (raising on
reaching Picking.create, as in startPickingRaises), then the state write. -/
def actionReturnBooking (env : Env) (s : Sys) (bid : Nat) : Except Err Sys :=
  match findBooking s bid with
  | none => Except.error Err.notFound
  | some _ =>
    if returnPickingRaises env s bid then Except.error Err.unknownPickingField
    else applyStateChange env s bid BState.returned

def actionCancel (env : Env) (s : Sys) (bid : Nat) : Except Err Sys :=
  match findBooking s bid with
  | none => Except.error Err.notFound
  | some _ => applyStateChange env s bid BState.cancelled

/-- Field values supplied at creation; ids are assigned by the database. -/
structure NewLine where
  productId : Option Nat
  quantity : Int
  sourceWarehouseId : Option Nat
  rentalWarehouseId : Option Nat
deriving DecidableEq, Repr

structure NewBooking where
  companyId : Nat
  projectId : Option Nat
  dateStart : Option Int
  dateEnd : Option Int
deriving DecidableEq, Repr

def freshBookingId (s : Sys) : Nat :=
  1 + (s.bookings.map (·.id)).foldr max 0

def freshLineId (s : Sys) : Nat :=
  1 + (s.lines.map (·.id)).foldr max 0

def assignLineIds (bid : Nat) : Nat → List NewLine → List RLine
  | _, [] => []
  | nextId, nl :: rest =>
    ⟨nextId, bid, nl.productId, nl.quantity, nl.sourceWarehouseId, nl.rentalWarehouseId⟩ ::
      assignLineIds bid (nextId + 1) rest

/-- Creation of a booking with its lines: fresh ids, default draft state, and
the line constraint fires on the created lines (a no-op for draft). -/
def createBooking (env : Env) (s : Sys) (nb : NewBooking) (nls : List NewLine) :
    Except Err Sys :=
  let bid := freshBookingId s
  let b : RBooking := ⟨bid, nb.companyId, nb.projectId, nb.dateStart, nb.dateEnd, BState.draft⟩
  let ls := assignLineIds bid (freshLineId s) nls
  let s' : Sys := ⟨s.bookings ++ [b], s.lines ++ ls⟩
  match checkLines env s' ls with
  | Except.error e => Except.error (Err.availability e)
  | Except.ok _ => Except.ok s'

inductive Op
  | create (nb : NewBooking) (nls : List NewLine)
  | confirm (bid : Nat)
  | markOngoing (bid : Nat)
  | finish (bid : Nat)
  | markReturned (bid : Nat)
  | cancel (bid : Nat)
deriving DecidableEq, Repr

def applyOp (env : Env) (op : Op) (s : Sys) : Except Err Sys :=
  match op with
  | Op.create nb nls => createBooking env s nb nls
  | Op.confirm bid => actionConfirm env s bid
  | Op.markOngoing bid => actionMarkOngoing env s bid
  | Op.finish bid => actionFinish env s bid
  | Op.markReturned bid => actionReturnBooking env s bid
  | Op.cancel bid => actionCancel env s bid

/-- Transactional execution of one operation: a raised error rolls the
database back, so a failed operation leaves the system unchanged. -/
def stepOp (env : Env) (s : Sys) (op : Op) : Sys :=
  match applyOp env op s with
  | Except.ok s' => s'
  | Except.error _ => s

def runOps (env : Env) (s : Sys) (ops : List Op) : Sys :=
  ops.foldl (stepOp env) s

def opsAllSucceed (env : Env) (s : Sys) : List Op → Bool
  | [] => true
  | op :: rest =>
    match applyOp env op s with
    | Except.ok s' => opsAllSucceed env s' rest
    | Except.error _ => false

/-- Demand-counting states of the availability search domain in the source:
reserved and ongoing only. -/
def reducingState (st : BState) : Bool :=
  match st with
  | BState.reserved => true
  | BState.ongoing => true
  | _ => false

/-- Modelled from the spec: the spec declares reserved, ongoing and finished
capacity-reducing; used to state what the spec predicts, next to the
source's reducingState. -/
def specReducingState (st : BState) : Bool :=
  match st with
  | BState.reserved => true
  | BState.ongoing => true
  | BState.finished => true
  | _ => false

def activeDemandAt (s : Sys) (pid : Nat) (t : Int) (l : RLine) : Bool :=
  decide (l.productId = some pid) &&
  (match lineState s l with
   | some st => reducingState st
   | none => false) &&
  (match lineDateStart s l, lineDateEnd s l with
   | some ds, some de => decide (ds ≤ t) && decide (t < de)
   | _, _ => false)

/-- Sum of quantities of lines of a product that are in a demand-counting
state of the source and whose half-open interval contains the instant. -/
def demandAt (s : Sys) (pid : Nat) (t : Int) : Int :=
  ((s.lines.filter (activeDemandAt s pid t)).map (·.quantity)).sum

def specActiveDemandAt (s : Sys) (pid : Nat) (t : Int) (l : RLine) : Bool :=
  decide (l.productId = some pid) &&
  (match lineState s l with
   | some st => specReducingState st
   | none => false) &&
  (match lineDateStart s l, lineDateEnd s l with
   | some ds, some de => decide (ds ≤ t) && decide (t < de)
   | _, _ => false)

/-- Modelled from the spec: sum of quantities of capacity-reducing lines (in
the spec's sense, finished included) whose interval contains the instant. -/
def specDemandAt (s : Sys) (pid : Nat) (t : Int) : Int :=
  ((s.lines.filter (specActiveDemandAt s pid t)).map (·.quantity)).sum

/-- Quant domain of ProductTemplate._compute_tlrm_fleet_capacity: variant of
the template, requesting company, internal location. -/
def quantTlrmScope (env : Env) (variantIds : List Nat) (cid : Nat) (q : Quant) : Bool :=
  decide (q.productId ∈ variantIds) && decide (q.companyId = cid) &&
    locInternal env q.locationId

/-- One entry of the qty_by_product lookup built from the grouped read. -/
def tlrmQtyOfVariant (env : Env) (variantIds : List Nat) (cid : Nat) (vid : Nat) : Int :=
  ((env.quants.filter
      (fun q => quantTlrmScope env variantIds cid q && decide (q.productId = vid))).map
    (·.quantity)).sum

/-- Embedding of _compute_tlrm_fleet_capacity: group on-hand quantity by
variant over internal locations of the company, then add the groups of the
template's variants.  Nothing booking-related is subtracted here. -/
def tlrmFleetCapacity (env : Env) (variantIds : List Nat) (cid : Nat) : Int :=
  (variantIds.map (tlrmQtyOfVariant env variantIds cid)).sum

inductive RDirection
  | outbound
  | inbound
deriving DecidableEq, Repr

structure Picking where
  id : Nat
  tlrmBookingId : Option Nat
  tlrmDirection : Option RDirection
deriving DecidableEq, Repr

/-- State rewrite of StockPicking._action_done for the linked booking: an out
picking done while reserved starts the rental, an in picking done while
ongoing or finished returns it, anything else leaves the state alone. -/
def doneBookingState (dir : Option RDirection) (st : BState) : BState :=
  if dir = some RDirection.outbound then
    if st = BState.reserved then BState.ongoing else st
  else if dir = some RDirection.inbound then
    if st = BState.ongoing ∨ st = BState.finished then BState.returned else st
  else st

/-- Embedding of StockPicking._action_done for one picking: skip pickings
without a rental booking, else rewrite the linked booking's state. -/
def pickingActionDone (s : Sys) (p : Picking) : Sys :=
  match p.tlrmBookingId with
  | none => s
  | some bid =>
    match findBooking s bid with
    | none => s
    | some b => setBookingState s bid (doneBookingState p.tlrmDirection b.state)

/-- Well-formed database: record ids are unique. -/
def WfSys (s : Sys) : Prop :=
  (s.bookings.map (·.id)).Nodup ∧ (s.lines.map (·.id)).Nodup

/-- All records live in one company and all lines share one source-warehouse
value and carry nonnegative quantities. -/
def UniformSys (s : Sys) (cid : Nat) (w : Option Nat) : Prop :=
  (∀ b ∈ s.bookings, b.companyId = cid) ∧
  (∀ l ∈ s.lines, l.sourceWarehouseId = w ∧ 0 ≤ l.quantity)

/-- Capacity ceiling of the common scope: the base capacity computed for a
line whose source warehouse is w. -/
def capScope (env : Env) (pid cid : Nat) (w : Option Nat) : Int :=
  baseCapacityOf env pid cid
    (w.bind (fun wid => (findWarehouse env wid).bind (·.lotStockId)))

def DemandBound (env : Env) (cid : Nat) (w : Option Nat) (s : Sys) : Prop :=
  ∀ pid t, demandAt s pid t ≤ max (capScope env pid cid w) 0

def GoodSys (env : Env) (cid : Nat) (w : Option Nat) (s : Sys) : Prop :=
  WfSys s ∧ UniformSys s cid w ∧ DemandBound env cid w s

/-- Operation precondition for the amended invariant: created records stay in
the one company / one source-warehouse scope with nonnegative quantities. -/
def opOk (cid : Nat) (w : Option Nat) : Op → Bool
  | Op.create nb nls =>
    decide (nb.companyId = cid) &&
      nls.all (fun nl => decide (nl.sourceWarehouseId = w) && decide (0 ≤ nl.quantity))
  | _ => true

theorem sum_filter_le_of_imp {α : Type} (xs : List α) (p q : α → Bool) (f : α → Int)
    (hf : ∀ x ∈ xs, 0 ≤ f x)
    (hpq : ∀ x ∈ xs, p x = true → q x = true ∨ f x = 0) :
    ((xs.filter p).map f).sum ≤ ((xs.filter q).map f).sum := by
  induction xs with
  | nil => simp
  | cons x xs ih =>
    have hf' : ∀ y ∈ xs, 0 ≤ f y := fun y hy => hf y (List.mem_cons_of_mem _ hy)
    have hpq' : ∀ y ∈ xs, p y = true → q y = true ∨ f y = 0 :=
      fun y hy => hpq y (List.mem_cons_of_mem _ hy)
    have hih := ih hf' hpq'
    rw [List.filter_cons, List.filter_cons]
    by_cases hp : p x = true
    · rcases hpq x (List.mem_cons_self x xs) hp with hq | hz
      · rw [if_pos hp, if_pos hq]
        simp only [List.map_cons, List.sum_cons]
        omega
      · by_cases hq : q x = true
        · rw [if_pos hp, if_pos hq]
          simp only [List.map_cons, List.sum_cons]
          omega
        · rw [if_pos hp, if_neg hq]
          simp only [List.map_cons, List.sum_cons]
          omega
    · by_cases hq : q x = true
      · have hfx : 0 ≤ f x := hf x (List.mem_cons_self x xs)
        rw [if_neg hp, if_pos hq]
        simp only [List.map_cons, List.sum_cons]
        omega
      · rw [if_neg hp, if_neg hq]
        exact hih

theorem sum_filter_erase_key {α : Type} (xs : List α) (key : α → Nat) (p : α → Bool)
    (f : α → Int) (a : α) (hnd : (xs.map key).Nodup) (ha : a ∈ xs) (hpa : p a = true) :
    ((xs.filter p).map f).sum =
      f a + ((xs.filter (fun x => p x && decide (key x ≠ key a))).map f).sum := by
  induction xs with
  | nil => cases ha
  | cons x xs ih =>
    have hnd' : (xs.map key).Nodup := (List.nodup_cons.mp hnd).2
    have hkx : key x ∉ xs.map key := (List.nodup_cons.mp hnd).1
    rw [List.filter_cons, List.filter_cons]
    rcases List.mem_cons.mp ha with rfl | ha'
    · have hneq : ¬((p a && decide (key a ≠ key a)) = true) := by simp
      rw [if_pos hpa, if_neg hneq]
      have hcongr : xs.filter (fun y => p y && decide (key y ≠ key a)) = xs.filter p := by
        apply List.filter_congr
        intro y hy
        have hmem : key y ∈ xs.map key := List.mem_map_of_mem _ hy
        have hne : key y ≠ key a := by
          intro hc
          rw [hc] at hmem
          exact hkx hmem
        rw [decide_eq_true hne, Bool.and_true]
      rw [hcongr]
      simp only [List.map_cons, List.sum_cons]
    · have hmem : key a ∈ xs.map key := List.mem_map_of_mem _ ha'
      have hne : key x ≠ key a := by
        intro hc
        rw [← hc] at hmem
        exact hkx hmem
      have hih := ih hnd' ha'
      by_cases hp : p x = true
      · have hppos : (p x && decide (key x ≠ key a)) = true := by
          rw [hp, decide_eq_true hne, Bool.and_self]
        rw [if_pos hp, if_pos hppos]
        simp only [List.map_cons, List.sum_cons]
        omega
      · have hpneg : ¬((p x && decide (key x ≠ key a)) = true) := by
          intro hc
          exact hp (Bool.and_elim_left hc)
        rw [if_neg hp, if_neg hpneg]
        exact hih

theorem le_foldr_max (xs : List Nat) (x : Nat) (hx : x ∈ xs) : x ≤ xs.foldr max 0 := by
  induction xs with
  | nil => cases hx
  | cons y ys ih =>
    rcases List.mem_cons.mp hx with rfl | h
    · exact Nat.le_max_left _ _
    · exact Nat.le_trans (ih h) (Nat.le_max_right _ _)

theorem booking_id_lt_fresh (s : Sys) (b : RBooking) (hb : b ∈ s.bookings) :
    b.id < freshBookingId s := by
  have := le_foldr_max (s.bookings.map (·.id)) b.id (List.mem_map_of_mem _ hb)
  unfold freshBookingId
  omega

theorem line_id_lt_fresh (s : Sys) (l : RLine) (hl : l ∈ s.lines) :
    l.id < freshLineId s := by
  have := le_foldr_max (s.lines.map (·.id)) l.id (List.mem_map_of_mem _ hl)
  unfold freshLineId
  omega

theorem assignLineIds_mem {bid n : Nat} {nls : List NewLine} {l : RLine}
    (hl : l ∈ assignLineIds bid n nls) :
    l.bookingId = bid ∧ n ≤ l.id ∧
      ∃ nl ∈ nls, l.productId = nl.productId ∧ l.quantity = nl.quantity ∧
        l.sourceWarehouseId = nl.sourceWarehouseId ∧
        l.rentalWarehouseId = nl.rentalWarehouseId := by
  induction nls generalizing n with
  | nil => cases hl
  | cons nl rest ih =>
    rcases List.mem_cons.mp hl with rfl | h
    · exact ⟨rfl, Nat.le_refl _, nl, List.mem_cons_self _ _, rfl, rfl, rfl, rfl⟩
    · obtain ⟨h1, h2, nl', hnl', h3⟩ := ih h
      exact ⟨h1, Nat.le_of_succ_le h2, nl', List.mem_cons_of_mem _ hnl', h3⟩

theorem assignLineIds_ids_nodup (bid : Nat) (nls : List NewLine) (n : Nat) :
    ((assignLineIds bid n nls).map (·.id)).Nodup := by
  induction nls generalizing n with
  | nil => simp [assignLineIds]
  | cons nl rest ih =>
    simp only [assignLineIds, List.map_cons]
    refine List.nodup_cons.mpr ⟨?_, ih (n + 1)⟩
    intro hmem
    obtain ⟨l, hl, hid⟩ := List.mem_map.mp hmem
    have := (assignLineIds_mem hl).2.1
    omega

theorem findBooking_id {s : Sys} {bid : Nat} {b : RBooking}
    (h : findBooking s bid = some b) : b.id = bid := by
  have := List.find?_some h
  simpa using this

theorem findBooking_mem {s : Sys} {bid : Nat} {b : RBooking}
    (h : findBooking s bid = some b) : b ∈ s.bookings :=
  List.mem_of_find?_eq_some h

theorem find_map_preserving (bs : List RBooking) (g : RBooking → RBooking)
    (hg : ∀ b, (g b).id = b.id) (x : Nat) :
    (bs.map g).find? (fun b => decide (b.id = x)) =
      (bs.find? (fun b => decide (b.id = x))).map g := by
  induction bs with
  | nil => rfl
  | cons b bs ih =>
    by_cases hb : b.id = x
    · rw [List.map_cons, List.find?_cons_of_pos _ (by simp [hg, hb]),
        List.find?_cons_of_pos _ (by simp [hb])]
      rfl
    · rw [List.map_cons, List.find?_cons_of_neg _ (by simp [hg, hb]),
        List.find?_cons_of_neg _ (by simp [hb])]
      exact ih

theorem findBooking_setState (s : Sys) (bid : Nat) (ns : BState) (x : Nat) :
    findBooking (setBookingState s bid ns) x =
      (findBooking s x).map
        (fun b => if b.id = bid then { b with state := ns } else b) := by
  unfold findBooking setBookingState
  exact find_map_preserving _ _ (fun b => by by_cases h : b.id = bid <;> simp [h]) x

theorem lines_setState (s : Sys) (bid : Nat) (ns : BState) :
    (setBookingState s bid ns).lines = s.lines := rfl

theorem linesOfBooking_setState (s : Sys) (bid : Nat) (ns : BState) (x : Nat) :
    linesOfBooking (setBookingState s bid ns) x = linesOfBooking s x := rfl

theorem lineBooking_setState (s : Sys) (bid : Nat) (ns : BState) (l : RLine) :
    lineBooking (setBookingState s bid ns) l =
      (lineBooking s l).map
        (fun b => if b.id = bid then { b with state := ns } else b) :=
  findBooking_setState s bid ns l.bookingId

theorem lineDateStart_setState (s : Sys) (bid : Nat) (ns : BState) (l : RLine) :
    lineDateStart (setBookingState s bid ns) l = lineDateStart s l := by
  unfold lineDateStart
  rw [lineBooking_setState]
  cases lineBooking s l with
  | none => rfl
  | some b => by_cases h : b.id = bid <;> simp [h]

theorem lineDateEnd_setState (s : Sys) (bid : Nat) (ns : BState) (l : RLine) :
    lineDateEnd (setBookingState s bid ns) l = lineDateEnd s l := by
  unfold lineDateEnd
  rw [lineBooking_setState]
  cases lineBooking s l with
  | none => rfl
  | some b => by_cases h : b.id = bid <;> simp [h]

theorem lineCompany_setState (s : Sys) (bid : Nat) (ns : BState) (l : RLine) :
    lineCompany (setBookingState s bid ns) l = lineCompany s l := by
  unfold lineCompany
  rw [lineBooking_setState]
  cases lineBooking s l with
  | none => rfl
  | some b => by_cases h : b.id = bid <;> simp [h]

theorem lineState_setState_other (s : Sys) (bid : Nat) (ns : BState) (l : RLine)
    (h : l.bookingId ≠ bid) :
    lineState (setBookingState s bid ns) l = lineState s l := by
  unfold lineState
  rw [lineBooking_setState]
  cases hb : lineBooking s l with
  | none => rfl
  | some b =>
    have hid : b.id = l.bookingId := findBooking_id hb
    have hne : b.id ≠ bid := by rw [hid]; exact h
    simp [hne]

theorem lineState_setState_self (s : Sys) (bid : Nat) (ns : BState) (l : RLine)
    (b : RBooking) (h : l.bookingId = bid) (hb : lineBooking s l = some b) :
    lineState (setBookingState s bid ns) l = some ns := by
  unfold lineState
  rw [lineBooking_setState, hb]
  have hid : b.id = bid := by rw [findBooking_id hb, h]
  simp [hid]

theorem lineBooking_setState_self (s : Sys) (bid : Nat) (ns : BState) (l : RLine)
    (b : RBooking) (h : l.bookingId = bid) (hb : lineBooking s l = some b) :
    lineBooking (setBookingState s bid ns) l = some { b with state := ns } := by
  rw [lineBooking_setState, hb]
  have hid : b.id = bid := by rw [findBooking_id hb, h]
  simp [hid]

theorem checkLines_ok_mem {env : Env} {s : Sys} {ls : List RLine}
    (h : checkLines env s ls = Except.ok ()) {l : RLine} (hl : l ∈ ls) :
    checkLineAvailability env s l = Except.ok () ∨
      (∀ st, lineState s l = some st → triggerState st = false) := by
  induction ls with
  | nil => cases hl
  | cons x xs ih =>
    rw [checkLines] at h
    cases hc : constraintCheckLine env s x with
    | error e => rw [hc] at h; simp at h
    | ok u =>
      cases u
      rw [hc] at h
      rcases List.mem_cons.mp hl with rfl | h'
      · unfold constraintCheckLine at hc
        split at hc
        · rename_i st hst
          split at hc
          · exact Or.inl hc
          · rename_i htr
            refine Or.inr ?_
            intro st' hst'
            rw [hst] at hst'
            injection hst' with h3
            rw [← h3]
            exact Bool.eq_false_iff.mpr htr
        · rename_i hst
          refine Or.inr ?_
          intro st hst'
          rw [hst] at hst'
          cases hst'
      · exact ih h h'

theorem confirmValidateLines_ok_mem {env : Env} {s : Sys} {ls : List RLine}
    (h : confirmValidateLines env s ls = Except.ok ()) {l : RLine} (hl : l ∈ ls) :
    l.productId ≠ none ∧ l.sourceWarehouseId ≠ none ∧ l.rentalWarehouseId ≠ none ∧
      checkLineAvailability env s l = Except.ok () := by
  induction ls with
  | nil => cases hl
  | cons x xs ih =>
    rw [confirmValidateLines] at h
    by_cases hp : x.productId = none
    · rw [if_pos hp] at h; simp at h
    · rw [if_neg hp] at h
      by_cases hw : x.sourceWarehouseId = none ∨ x.rentalWarehouseId = none
      · rw [if_pos hw] at h; simp at h
      · rw [if_neg hw] at h
        cases hc : checkLineAvailability env s x with
        | error e => rw [hc] at h; simp at h
        | ok u =>
          cases u
          rw [hc] at h
          rcases List.mem_cons.mp hl with rfl | h'
          · push_neg at hw
            exact ⟨hp, hw.1, hw.2, hc⟩
          · exact ih h h'

theorem applyStateChange_ok {env : Env} {s : Sys} {bid : Nat} {ns : BState} {s' : Sys}
    (h : applyStateChange env s bid ns = Except.ok s') :
    s' = setBookingState s bid ns ∧
      checkLines env (setBookingState s bid ns)
        (linesOfBooking (setBookingState s bid ns) bid) = Except.ok () := by
  simp only [applyStateChange] at h
  cases hc : checkLines env (setBookingState s bid ns)
      (linesOfBooking (setBookingState s bid ns) bid) with
  | error e => rw [hc] at h; simp at h
  | ok u =>
    rw [hc] at h
    cases u
    refine ⟨?_, rfl⟩
    injection h with h2
    exact h2.symm

theorem actionConfirm_ok {env : Env} {s : Sys} {bid : Nat} {s' : Sys}
    (h : actionConfirm env s bid = Except.ok s') :
    ∃ b ds de, findBooking s bid = some b ∧ b.dateStart = some ds ∧
      b.dateEnd = some de ∧ ds ≤ de ∧ b.projectId ≠ none ∧
      confirmValidateLines env s (linesOfBooking s bid) = Except.ok () ∧
      startPickingRaises env s bid = false ∧
      applyStateChange env s bid BState.reserved = Except.ok s' := by
  unfold actionConfirm at h
  cases hb : findBooking s bid with
  | none => rw [hb] at h; simp at h
  | some b =>
    simp only [hb] at h
    cases hds : b.dateStart with
    | none => rw [hds] at h; simp at h
    | some ds =>
      simp only [hds] at h
      cases hde : b.dateEnd with
      | none => rw [hde] at h; simp at h
      | some de =>
        simp only [hde] at h
        by_cases hlt : ds > de
        · rw [if_pos hlt] at h; simp at h
        · rw [if_neg hlt] at h
          by_cases hproj : b.projectId = none
          · rw [if_pos hproj] at h; simp at h
          · rw [if_neg hproj] at h
            cases hv : confirmValidateLines env s (linesOfBooking s bid) with
            | error e => rw [hv] at h; simp at h
            | ok u =>
              rw [hv] at h
              cases u
              by_cases hpk : startPickingRaises env s bid = true
              · rw [if_pos hpk] at h
                simp at h
              · rw [if_neg hpk] at h
                exact ⟨b, ds, de, rfl, hds, hde, by omega, hproj, rfl,
                  Bool.eq_false_iff.mpr hpk, h⟩

theorem actionMarkOngoing_ok {env : Env} {s : Sys} {bid : Nat} {s' : Sys}
    (h : actionMarkOngoing env s bid = Except.ok s') :
    applyStateChange env s bid BState.ongoing = Except.ok s' := by
  unfold actionMarkOngoing at h
  cases hb : findBooking s bid with
  | none => rw [hb] at h; simp at h
  | some b => simp only [hb] at h; exact h

theorem actionFinish_ok {env : Env} {s : Sys} {bid : Nat} {s' : Sys}
    (h : actionFinish env s bid = Except.ok s') :
    applyStateChange env s bid BState.finished = Except.ok s' := by
  unfold actionFinish at h
  cases hb : findBooking s bid with
  | none => rw [hb] at h; simp at h
  | some b => simp only [hb] at h; exact h

theorem actionReturnBooking_ok {env : Env} {s : Sys} {bid : Nat} {s' : Sys}
    (h : actionReturnBooking env s bid = Except.ok s') :
    applyStateChange env s bid BState.returned = Except.ok s' := by
  unfold actionReturnBooking at h
  cases hb : findBooking s bid with
  | none => rw [hb] at h; simp at h
  | some b =>
    simp only [hb] at h
    by_cases hpk : returnPickingRaises env s bid = true
    · rw [if_pos hpk] at h
      simp at h
    · rw [if_neg hpk] at h
      exact h

theorem actionCancel_ok {env : Env} {s : Sys} {bid : Nat} {s' : Sys}
    (h : actionCancel env s bid = Except.ok s') :
    applyStateChange env s bid BState.cancelled = Except.ok s' := by
  unfold actionCancel at h
  cases hb : findBooking s bid with
  | none => rw [hb] at h; simp at h
  | some b => simp only [hb] at h; exact h

theorem createBooking_ok {env : Env} {s : Sys} {nb : NewBooking} {nls : List NewLine}
    {s' : Sys} (h : createBooking env s nb nls = Except.ok s') :
    s' = ⟨s.bookings ++
            [⟨freshBookingId s, nb.companyId, nb.projectId, nb.dateStart, nb.dateEnd,
              BState.draft⟩],
          s.lines ++ assignLineIds (freshBookingId s) (freshLineId s) nls⟩ := by
  simp only [createBooking] at h
  cases hc : checkLines env
      ⟨s.bookings ++
          [⟨freshBookingId s, nb.companyId, nb.projectId, nb.dateStart, nb.dateEnd,
            BState.draft⟩],
        s.lines ++ assignLineIds (freshBookingId s) (freshLineId s) nls⟩
      (assignLineIds (freshBookingId s) (freshLineId s) nls) with
  | error e => rw [hc] at h; simp at h
  | ok u =>
    rw [hc] at h
    cases u
    injection h with h2
    exact h2.symm

theorem activeDemandAt_iff (s : Sys) (pid : Nat) (t : Int) (l : RLine) :
    activeDemandAt s pid t l = true ↔
      l.productId = some pid ∧
      (∃ st, lineState s l = some st ∧ reducingState st = true) ∧
      (∃ ds de, lineDateStart s l = some ds ∧ lineDateEnd s l = some de ∧
        ds ≤ t ∧ t < de) := by
  unfold activeDemandAt
  cases hst : lineState s l with
  | none => simp
  | some st =>
    cases hds : lineDateStart s l with
    | none => simp
    | some ds =>
      cases hde : lineDateEnd s l with
      | none => simp
      | some de => simp [Bool.and_eq_true, decide_eq_true_iff, and_assoc]

theorem overlapsDemand_intro {s : Sys} {candId pid cid : Nat} {cs ce : Int}
    {srcWh : Option Nat} {other : RLine}
    (h1 : other.id ≠ candId) (h2 : other.productId = some pid)
    (h3 : lineCompany s other = some cid)
    (h4 : ∃ st, lineState s other = some st ∧ reducingState st = true)
    (h5 : ∃ os oe, lineDateStart s other = some os ∧ lineDateEnd s other = some oe ∧
      os < ce ∧ oe > cs)
    (h6 : ∀ wid, srcWh = some wid → other.sourceWarehouseId = some wid) :
    overlapsDemand s candId pid cid cs ce srcWh other = true := by
  obtain ⟨st, hst, hred⟩ := h4
  obtain ⟨os, oe, hos, hoe, h7, h8⟩ := h5
  unfold overlapsDemand
  rw [hst, hos, hoe]
  have e4 : (match some st with
             | some BState.reserved => true
             | some BState.ongoing => true
             | _ => false) = true := by
    cases st <;> first | rfl | (exfalso; simp [reducingState] at hred)
  rw [e4]
  cases srcWh with
  | none => simp [h1, h2, h3, h7, h8]
  | some wid => simp [h1, h2, h3, h7, h8, h6 wid rfl]

theorem activeDemandAt_setState_other (s : Sys) (bid : Nat) (ns : BState)
    (pid : Nat) (t : Int) (l : RLine) (hbid : l.bookingId ≠ bid) :
    activeDemandAt (setBookingState s bid ns) pid t l = activeDemandAt s pid t l := by
  unfold activeDemandAt
  rw [lineDateStart_setState, lineDateEnd_setState, lineState_setState_other s bid ns l hbid]

theorem checkLineAvailability_ok_bounds {env : Env} {s : Sys} {l : RLine}
    {b : RBooking} {pid : Nat} {ds de : Int}
    (hb : lineBooking s l = some b) (hp : l.productId = some pid)
    (hds : b.dateStart = some ds) (hde : b.dateEnd = some de)
    (hq : 0 < l.quantity)
    (h : checkLineAvailability env s l = Except.ok ()) :
    0 < baseCapacityOf env pid b.companyId (sourceLocationId env l) ∧
      committedQty s l.id pid b.companyId ds de l.sourceWarehouseId + l.quantity ≤
        baseCapacityOf env pid b.companyId (sourceLocationId env l) := by
  unfold checkLineAvailability at h
  simp only [hb, hp, hds, hde] at h
  rw [if_neg (by omega)] at h
  by_cases hbase : baseCapacityOf env pid b.companyId (sourceLocationId env l) ≤ 0
  · rw [if_pos hbase] at h
    simp at h
  · rw [if_neg hbase] at h
    by_cases hover : committedQty s l.id pid b.companyId ds de l.sourceWarehouseId +
        l.quantity > baseCapacityOf env pid b.companyId (sourceLocationId env l)
    · rw [if_pos hover] at h
      simp at h
    · exact ⟨by omega, by omega⟩

theorem wf_setState (s : Sys) (bid : Nat) (ns : BState) (h : WfSys s) :
    WfSys (setBookingState s bid ns) := by
  refine ⟨?_, h.2⟩
  have : (setBookingState s bid ns).bookings.map (·.id) = s.bookings.map (·.id) := by
    unfold setBookingState
    rw [List.map_map]
    apply List.map_congr_left
    intro b _
    by_cases hb : b.id = bid <;> simp [hb]
  rw [this]
  exact h.1

theorem uniform_setState (s : Sys) (bid : Nat) (ns : BState) (cid : Nat)
    (w : Option Nat) (h : UniformSys s cid w) :
    UniformSys (setBookingState s bid ns) cid w := by
  refine ⟨?_, h.2⟩
  intro b' hb'
  obtain ⟨b, hb, rfl⟩ := List.mem_map.mp hb'
  by_cases hid : b.id = bid
  · simp only [hid, if_true]
    exact h.1 b hb
  · simp only [hid, if_false]
    exact h.1 b hb

theorem demandBound_setState_notReducing (env : Env) (cid : Nat) (w : Option Nat)
    (s : Sys) (bid : Nat) (ns : BState) (hns : reducingState ns = false)
    (huni : UniformSys s cid w) (hbound : DemandBound env cid w s) :
    DemandBound env cid w (setBookingState s bid ns) := by
  intro pid t
  refine le_trans ?_ (hbound pid t)
  unfold demandAt
  rw [lines_setState]
  apply sum_filter_le_of_imp
  · exact fun l hl => (huni.2 l hl).2
  · intro l hl hp
    left
    by_cases hbid : l.bookingId = bid
    · exfalso
      obtain ⟨_, ⟨st, hst, hred⟩, _⟩ := (activeDemandAt_iff _ _ _ _).mp hp
      cases hlb : lineBooking s l with
      | none =>
        rw [lineState, lineBooking_setState, hlb] at hst
        simp at hst
      | some b =>
        rw [lineState_setState_self s bid ns l b hbid hlb] at hst
        injection hst with h3
        rw [← h3, hns] at hred
        cases hred
    · rw [activeDemandAt_setState_other s bid ns pid t l hbid] at hp
      exact hp

theorem demandBound_after_enter (env : Env) (cid : Nat) (w : Option Nat) (s : Sys)
    (bid : Nat) (ns : BState) (hred : reducingState ns = true)
    (hwf : WfSys s) (huni : UniformSys s cid w) (hbound : DemandBound env cid w s)
    (hchecks : checkLines env (setBookingState s bid ns)
      (linesOfBooking (setBookingState s bid ns) bid) = Except.ok ()) :
    DemandBound env cid w (setBookingState s bid ns) := by
  intro pid t
  by_cases hex : ∃ L, L ∈ s.lines ∧ L.bookingId = bid ∧
      activeDemandAt (setBookingState s bid ns) pid t L = true ∧ 0 < L.quantity
  · obtain ⟨L, hLmem, hLbid, hLact, hLq⟩ := hex
    have hLmem' : L ∈ linesOfBooking (setBookingState s bid ns) bid := by
      rw [linesOfBooking_setState]
      exact List.mem_filter.mpr ⟨hLmem, decide_eq_true hLbid⟩
    have hcl := checkLines_ok_mem hchecks hLmem'
    obtain ⟨hLpid, ⟨st', hst', hred'⟩, ds, de, hds, hde, hts, hte⟩ :=
      (activeDemandAt_iff _ _ _ _).mp hLact
    cases hlb : lineBooking s L with
    | none =>
      exfalso
      rw [lineState, lineBooking_setState, hlb] at hst'
      simp at hst'
    | some b =>
      have hstate' : lineState (setBookingState s bid ns) L = some ns :=
        lineState_setState_self s bid ns L b hLbid hlb
      have htrig : triggerState ns = true := by
        cases ns <;> first | rfl | (exfalso; simp [reducingState] at hred)
      rcases hcl with hok | hno
      · have hlb' : lineBooking (setBookingState s bid ns) L = some { b with state := ns } :=
          lineBooking_setState_self s bid ns L b hLbid hlb
        have hbds : ({ b with state := ns } : RBooking).dateStart = some ds := by
          rw [lineDateStart, hlb'] at hds
          exact hds
        have hbde : ({ b with state := ns } : RBooking).dateEnd = some de := by
          rw [lineDateEnd, hlb'] at hde
          exact hde
        have hbmem : b ∈ s.bookings := findBooking_mem hlb
        have hbc : b.companyId = cid := huni.1 b hbmem
        have hLw : L.sourceWarehouseId = w := (huni.2 L hLmem).1
        have hsrc : sourceLocationId env L =
            w.bind (fun wid => (findWarehouse env wid).bind (·.lotStockId)) := by
          unfold sourceLocationId
          rw [hLw]
        obtain ⟨hbase, hcheck⟩ := checkLineAvailability_ok_bounds hlb' hLpid hbds hbde hLq hok
        have hcap : baseCapacityOf env pid ({ b with state := ns } : RBooking).companyId
            (sourceLocationId env L) = capScope env pid cid w := by
          show baseCapacityOf env pid b.companyId (sourceLocationId env L) = _
          rw [hbc, hsrc]
          rfl
        rw [hcap] at hbase hcheck
        have hsplit : demandAt (setBookingState s bid ns) pid t =
            L.quantity +
              ((s.lines.filter (fun x =>
                activeDemandAt (setBookingState s bid ns) pid t x &&
                  decide (x.id ≠ L.id))).map (·.quantity)).sum := by
          unfold demandAt
          rw [lines_setState]
          exact sum_filter_erase_key s.lines (·.id) _ (·.quantity) L hwf.2 hLmem hLact
        have hrest : ((s.lines.filter (fun x =>
            activeDemandAt (setBookingState s bid ns) pid t x &&
              decide (x.id ≠ L.id))).map (·.quantity)).sum ≤
            committedQty (setBookingState s bid ns) L.id pid
              ({ b with state := ns } : RBooking).companyId ds de L.sourceWarehouseId := by
          unfold committedQty
          rw [lines_setState]
          apply sum_filter_le_of_imp
          · exact fun x hx => (huni.2 x hx).2
          · intro x hx hpx
            left
            rw [Bool.and_eq_true] at hpx
            obtain ⟨hx1, hx2⟩ := hpx
            obtain ⟨hxpid, ⟨stx, hstx, hredx⟩, osx, oex, hosx, hoex, hxts, hxte⟩ :=
              (activeDemandAt_iff _ _ _ _).mp hx1
            apply overlapsDemand_intro
            · exact of_decide_eq_true hx2
            · exact hxpid
            · cases hlbx : lineBooking (setBookingState s bid ns) x with
              | none =>
                exfalso
                rw [lineState, hlbx] at hstx
                simp at hstx
              | some bx' =>
                rw [lineCompany, hlbx, Option.map_some']
                rw [lineBooking_setState] at hlbx
                cases hlbx2 : lineBooking s x with
                | none => rw [hlbx2] at hlbx; simp at hlbx
                | some bx =>
                  rw [hlbx2, Option.map_some'] at hlbx
                  injection hlbx with hbx
                  have hbxmem : bx ∈ s.bookings := findBooking_mem hlbx2
                  have hcomp : bx'.companyId = bx.companyId := by
                    rw [← hbx]
                    by_cases hbxid : bx.id = bid <;> simp [hbxid]
                  rw [hcomp, huni.1 bx hbxmem,
                    show ({ b with state := ns } : RBooking).companyId = b.companyId from rfl,
                    hbc]
            · exact ⟨stx, hstx, hredx⟩
            · exact ⟨osx, oex, hosx, hoex, by omega, by omega⟩
            · intro wid hwid
              have hxw : x.sourceWarehouseId = w := (huni.2 x hx).1
              rw [hxw, ← hLw]
              exact hwid
        calc demandAt (setBookingState s bid ns) pid t
            = L.quantity + _ := hsplit
          _ ≤ L.quantity + committedQty (setBookingState s bid ns) L.id pid
                ({ b with state := ns } : RBooking).companyId ds de L.sourceWarehouseId := by
                omega
          _ ≤ capScope env pid cid w := by omega
          _ ≤ max (capScope env pid cid w) 0 := le_max_left _ _
      · exfalso
        have := hno ns hstate'
        rw [htrig] at this
        cases this
  · push_neg at hex
    refine le_trans ?_ (hbound pid t)
    unfold demandAt
    rw [lines_setState]
    apply sum_filter_le_of_imp
    · exact fun l hl => (huni.2 l hl).2
    · intro l hl hp
      by_cases hbid : l.bookingId = bid
      · right
        have hnq := hex l hl hbid hp
        have := (huni.2 l hl).2
        omega
      · left
        rw [activeDemandAt_setState_other s bid ns pid t l hbid] at hp
        exact hp

theorem lineBooking_append (s : Sys) (bk : RBooking) (newls : List RLine) (l : RLine) :
    lineBooking ⟨s.bookings ++ [bk], s.lines ++ newls⟩ l =
      ((findBooking s l.bookingId).or
        (if bk.id = l.bookingId then some bk else none)) := by
  show (s.bookings ++ [bk]).find? (fun b => decide (b.id = l.bookingId)) =
    ((s.bookings.find? (fun b => decide (b.id = l.bookingId))).or
      (if bk.id = l.bookingId then some bk else none))
  rw [List.find?_append]
  congr 1
  by_cases h : bk.id = l.bookingId
  · rw [List.find?_cons_of_pos _ (by simp [h]), if_pos h]
  · rw [List.find?_cons_of_neg _ (by simp [h]), if_neg h]
    rfl

theorem wf_create (s : Sys) (nb : NewBooking) (nls : List NewLine) (h : WfSys s) :
    WfSys ⟨s.bookings ++
             [⟨freshBookingId s, nb.companyId, nb.projectId, nb.dateStart, nb.dateEnd,
               BState.draft⟩],
           s.lines ++ assignLineIds (freshBookingId s) (freshLineId s) nls⟩ := by
  constructor
  · show ((s.bookings ++
        [(⟨freshBookingId s, nb.companyId, nb.projectId, nb.dateStart, nb.dateEnd,
          BState.draft⟩ : RBooking)]).map (·.id)).Nodup
    rw [List.map_append]
    refine List.Nodup.append h.1 (by simp) ?_
    intro a ha hb
    obtain ⟨b, hbmem, rfl⟩ := List.mem_map.mp ha
    simp only [List.map_cons, List.map_nil, List.mem_singleton] at hb
    have := booking_id_lt_fresh s b hbmem
    omega
  · show ((s.lines ++ assignLineIds (freshBookingId s) (freshLineId s) nls).map
        (·.id)).Nodup
    rw [List.map_append]
    refine List.Nodup.append h.2 (assignLineIds_ids_nodup _ _ _) ?_
    intro a ha hb
    obtain ⟨l, hlmem, rfl⟩ := List.mem_map.mp ha
    obtain ⟨l2, hl2mem, heq⟩ := List.mem_map.mp hb
    have h1 := line_id_lt_fresh s l hlmem
    have h2 := (assignLineIds_mem hl2mem).2.1
    omega

theorem uniform_create (s : Sys) (cid : Nat) (w : Option Nat) (nb : NewBooking)
    (nls : List NewLine) (h : UniformSys s cid w)
    (hnb : nb.companyId = cid)
    (hnls : ∀ nl ∈ nls, nl.sourceWarehouseId = w ∧ 0 ≤ nl.quantity) :
    UniformSys ⟨s.bookings ++
                  [⟨freshBookingId s, nb.companyId, nb.projectId, nb.dateStart, nb.dateEnd,
                    BState.draft⟩],
                s.lines ++ assignLineIds (freshBookingId s) (freshLineId s) nls⟩ cid w := by
  constructor
  · intro b hb
    rcases List.mem_append.mp hb with h1 | h2
    · exact h.1 b h1
    · simp only [List.mem_singleton] at h2
      rw [h2]
      exact hnb
  · intro l hl
    rcases List.mem_append.mp hl with h1 | h2
    · exact h.2 l h1
    · obtain ⟨_, _, nl, hnl, _, hq, hw, _⟩ := assignLineIds_mem h2
      obtain ⟨hw', hq'⟩ := hnls nl hnl
      exact ⟨by rw [hw, hw'], by rw [hq]; exact hq'⟩

theorem demandBound_create (env : Env) (cid : Nat) (w : Option Nat) (s : Sys)
    (nb : NewBooking) (nls : List NewLine)
    (huni : UniformSys s cid w) (hbound : DemandBound env cid w s) :
    DemandBound env cid w
      ⟨s.bookings ++
         [⟨freshBookingId s, nb.companyId, nb.projectId, nb.dateStart, nb.dateEnd,
           BState.draft⟩],
       s.lines ++ assignLineIds (freshBookingId s) (freshLineId s) nls⟩ := by
  intro pid t
  set bk : RBooking :=
    ⟨freshBookingId s, nb.companyId, nb.projectId, nb.dateStart, nb.dateEnd,
      BState.draft⟩ with hbk
  set newls := assignLineIds (freshBookingId s) (freshLineId s) nls with hnewls
  set s' : Sys := ⟨s.bookings ++ [bk], s.lines ++ newls⟩ with hs'
  refine le_trans ?_ (hbound pid t)
  unfold demandAt
  show (((s.lines ++ newls).filter (activeDemandAt s' pid t)).map (·.quantity)).sum ≤ _
  rw [List.filter_append, List.map_append, List.sum_append]
  have hnew0 : newls.filter (activeDemandAt s' pid t) = [] := by
    rw [List.filter_eq_nil_iff]
    intro l hl hact
    obtain ⟨_, ⟨st, hst, hredst⟩, _⟩ := (activeDemandAt_iff _ _ _ _).mp hact
    have hbid := (assignLineIds_mem hl).1
    have hlb : lineBooking s' l = some bk := by
      rw [hs', lineBooking_append]
      have hnone : findBooking s l.bookingId = none := by
        unfold findBooking
        rw [List.find?_eq_none]
        intro b hbmem
        simp only [decide_eq_true_iff]
        have := booking_id_lt_fresh s b hbmem
        omega
      rw [hnone, if_pos (show bk.id = l.bookingId by rw [hbid])]
      rfl
    rw [lineState, hlb, Option.map_some'] at hst
    injection hst with h3
    rw [← h3] at hredst
    simp [reducingState] at hredst
  rw [hnew0]
  simp only [List.map_nil, List.sum_nil, add_zero]
  apply sum_filter_le_of_imp
  · exact fun l hl => (huni.2 l hl).2
  · intro l hl hp
    left
    obtain ⟨h1, ⟨st, hst, hredst⟩, ds, de, hds, hde, h4, h5⟩ :=
      (activeDemandAt_iff _ _ _ _).mp hp
    rw [activeDemandAt_iff]
    cases hflb : findBooking s l.bookingId with
    | none =>
      exfalso
      have hlb' : lineBooking s' l = (if bk.id = l.bookingId then some bk else none) := by
        rw [hs', lineBooking_append, hflb]
        rfl
      by_cases hcond : bk.id = l.bookingId
      · rw [if_pos hcond] at hlb'
        rw [lineState, hlb', Option.map_some'] at hst
        injection hst with h3
        rw [← h3] at hredst
        simp [reducingState] at hredst
      · rw [if_neg hcond] at hlb'
        rw [lineState, hlb'] at hst
        simp at hst
    | some b =>
      have hlb' : lineBooking s' l = some b := by
        rw [hs', lineBooking_append, hflb]
        rfl
      have hlbs : lineBooking s l = some b := hflb
      rw [lineState, hlb', Option.map_some'] at hst
      rw [lineDateStart, hlb'] at hds
      rw [lineDateEnd, hlb'] at hde
      refine ⟨h1, ⟨st, ?_, hredst⟩, ds, de, ?_, ?_, h4, h5⟩
      · rw [lineState, hlbs, Option.map_some']
        exact hst
      · rw [lineDateStart, hlbs]
        exact hds
      · rw [lineDateEnd, hlbs]
        exact hde

theorem goodSys_stepOp (env : Env) (cid : Nat) (w : Option Nat) (op : Op) (s : Sys)
    (hop : opOk cid w op = true) (h : GoodSys env cid w s) :
    GoodSys env cid w (stepOp env s op) := by
  obtain ⟨hwf, huni, hbound⟩ := h
  unfold stepOp
  cases hap : applyOp env op s with
  | error e => exact ⟨hwf, huni, hbound⟩
  | ok s' =>
    cases op with
    | create nb nls =>
      have hcr := createBooking_ok hap
      subst hcr
      unfold opOk at hop
      rw [Bool.and_eq_true] at hop
      obtain ⟨hc1, hc2⟩ := hop
      have hnb : nb.companyId = cid := of_decide_eq_true hc1
      have hnls : ∀ nl ∈ nls, nl.sourceWarehouseId = w ∧ 0 ≤ nl.quantity := by
        intro nl hnl
        have := List.all_eq_true.mp hc2 nl hnl
        rw [Bool.and_eq_true] at this
        exact ⟨of_decide_eq_true this.1, of_decide_eq_true this.2⟩
      exact ⟨wf_create s nb nls hwf, uniform_create s cid w nb nls huni hnb hnls,
        demandBound_create env cid w s nb nls huni hbound⟩
    | confirm bid =>
      obtain ⟨b, ds, de, _, _, _, _, _, _, _, hasc⟩ := actionConfirm_ok hap
      obtain ⟨rfl, hchecks⟩ := applyStateChange_ok hasc
      exact ⟨wf_setState _ _ _ hwf, uniform_setState _ _ _ _ _ huni,
        demandBound_after_enter env cid w s bid BState.reserved rfl hwf huni hbound hchecks⟩
    | markOngoing bid =>
      obtain ⟨rfl, hchecks⟩ := applyStateChange_ok (actionMarkOngoing_ok hap)
      exact ⟨wf_setState _ _ _ hwf, uniform_setState _ _ _ _ _ huni,
        demandBound_after_enter env cid w s bid BState.ongoing rfl hwf huni hbound hchecks⟩
    | finish bid =>
      obtain ⟨rfl, _⟩ := applyStateChange_ok (actionFinish_ok hap)
      exact ⟨wf_setState _ _ _ hwf, uniform_setState _ _ _ _ _ huni,
        demandBound_setState_notReducing env cid w s bid BState.finished rfl huni hbound⟩
    | markReturned bid =>
      obtain ⟨rfl, _⟩ := applyStateChange_ok (actionReturnBooking_ok hap)
      exact ⟨wf_setState _ _ _ hwf, uniform_setState _ _ _ _ _ huni,
        demandBound_setState_notReducing env cid w s bid BState.returned rfl huni hbound⟩
    | cancel bid =>
      obtain ⟨rfl, _⟩ := applyStateChange_ok (actionCancel_ok hap)
      exact ⟨wf_setState _ _ _ hwf, uniform_setState _ _ _ _ _ huni,
        demandBound_setState_notReducing env cid w s bid BState.cancelled rfl huni hbound⟩

theorem goodSys_runOps (env : Env) (cid : Nat) (w : Option Nat) (ops : List Op)
    (s : Sys) (hops : ∀ op ∈ ops, opOk cid w op = true) (h : GoodSys env cid w s) :
    GoodSys env cid w (runOps env s ops) := by
  induction ops generalizing s with
  | nil => exact h
  | cons op rest ih =>
    exact ih (stepOp env s op) (fun o ho => hops o (List.mem_cons_of_mem _ ho))
      (goodSys_stepOp env cid w op s (hops op (List.mem_cons_self _ _)) h)

theorem goodSys_empty (env : Env) (cid : Nat) (w : Option Nat) :
    GoodSys env cid w emptySys := by
  refine ⟨⟨List.nodup_nil, List.nodup_nil⟩,
    ⟨fun b hb => absurd hb (List.not_mem_nil b), fun l hl => absurd hl (List.not_mem_nil l)⟩,
    ?_⟩
  intro pid t
  have h0 : demandAt emptySys pid t = 0 := rfl
  rw [h0]
  exact le_max_right _ _

theorem checkLines_ok_mem' {env : Env} {s : Sys} {ls : List RLine}
    (h : checkLines env s ls = Except.ok ()) {l : RLine} (hl : l ∈ ls) :
    constraintCheckLine env s l = Except.ok () := by
  induction ls with
  | nil => cases hl
  | cons x xs ih =>
    rw [checkLines] at h
    cases hc : constraintCheckLine env s x with
    | error e => rw [hc] at h; simp at h
    | ok u =>
      cases u
      rw [hc] at h
      rcases List.mem_cons.mp hl with rfl | h'
      · exact hc
      · exact ih h h'

/-- Modelled from the spec: the overlap search domain with the spec's
capacity-reducing set, finished included; used only to state what the spec
predicts next to the source's overlapsDemand. -/
def specOverlapsDemand (s : Sys) (candId pid cid : Nat) (cs ce : Int)
    (srcWh : Option Nat) (other : RLine) : Bool :=
  decide (other.id ≠ candId) &&
  decide (other.productId = some pid) &&
  decide (lineCompany s other = some cid) &&
  (match lineState s other with
   | some st => specReducingState st
   | none => false) &&
  (match lineDateStart s other, lineDateEnd s other with
   | some os, some oe => decide (os < ce) && decide (oe > cs)
   | _, _ => false) &&
  (match srcWh with
   | some wid => decide (other.sourceWarehouseId = some wid)
   | none => true)

/-- Modelled from the spec: committed quantity with finished lines counted. -/
def specCommittedQty (s : Sys) (candId pid cid : Nat) (cs ce : Int)
    (srcWh : Option Nat) : Int :=
  ((s.lines.filter (specOverlapsDemand s candId pid cid cs ce srcWh)).map
    (·.quantity)).sum

/-- Example environment: product 1 in company 7, one internal stock location
100 holding 10 on-hand units with nothing stock-reserved, source warehouse 50
stocking location 100, rental warehouse 51.  Neither warehouse has an
internal picking type, so _create_start_picking takes its own
skip branch (if not picking_type: continue) before Picking.create: the runs
below are end-to-end traces of the source, with no picking created and no
raise. -/
def exEnv : Env :=
  ⟨[⟨1, 7, 100, 10, 0⟩], [⟨100, LUsage.internal, [100]⟩],
    [⟨50, some 100, none⟩, ⟨51, some 101, none⟩]⟩

/-- Same stock as exEnv but the warehouses carry internal picking types, so
_create_start_picking reaches Picking.create — and raises on its unknown
field names. -/
def exEnvPick : Env :=
  ⟨[⟨1, 7, 100, 10, 0⟩], [⟨100, LUsage.internal, [100]⟩],
    [⟨50, some 100, some 77⟩, ⟨51, some 101, some 78⟩]⟩

def exNB : NewBooking := ⟨7, some 1, some 0, some 10⟩

def exNL : NewLine := ⟨some 1, 10, some 50, some 51⟩

/-- Run for claim C1: book the whole fleet, walk the booking to finished,
then book the whole fleet again over the same window. -/
def c1Ops : List Op :=
  [Op.create exNB [exNL], Op.confirm 1, Op.markOngoing 1, Op.finish 1,
   Op.create exNB [exNL], Op.confirm 2]

def c2Sys : Sys :=
  ⟨[⟨1, 7, some 1, some 0, some 10, BState.finished⟩,
    ⟨2, 7, some 1, some 0, some 10, BState.draft⟩],
   [⟨1, 1, some 1, 10, some 50, some 51⟩, ⟨2, 2, some 1, 10, some 50, some 51⟩]⟩

def c2wSys : Sys :=
  ⟨[⟨1, 7, some 1, some 0, some 10, BState.reserved⟩],
   [⟨1, 1, some 1, 10, some 50, some 51⟩]⟩

def c3Sys : Sys := ⟨[⟨1, 7, some 1, some 0, some 10, BState.draft⟩], []⟩

def c4Sys : Sys :=
  ⟨[⟨1, 7, some 1, some 0, some 10, BState.draft⟩],
   [⟨1, 1, some 1, 0, some 50, some 51⟩]⟩

def c4BigSys : Sys :=
  ⟨[⟨1, 7, some 1, some 0, some 10, BState.draft⟩],
   [⟨1, 1, some 1, 11, some 50, some 51⟩]⟩

def c4wSys : Sys :=
  ⟨[⟨1, 7, some 1, some 0, some 10, BState.draft⟩],
   [⟨1, 1, some 1, 5, some 50, some 51⟩]⟩

def c5Sys : Sys :=
  ⟨[⟨1, 7, some 1, some 0, some 10, BState.finished⟩,
    ⟨2, 7, some 1, some 0, some 10, BState.draft⟩],
   [⟨1, 1, some 1, 10, some 50, some 51⟩, ⟨2, 2, some 1, 10, some 50, some 51⟩]⟩

def c5Cand : RLine := ⟨2, 2, some 1, 10, some 50, some 51⟩

def c5wSys : Sys :=
  ⟨[⟨1, 7, some 1, some 0, some 10, BState.reserved⟩,
    ⟨2, 7, some 1, some 0, some 10, BState.draft⟩],
   [⟨1, 1, some 1, 5, some 50, some 51⟩, ⟨2, 2, some 1, 5, some 50, some 51⟩]⟩

def c5wCand : RLine := ⟨2, 2, some 1, 5, some 50, some 51⟩

/-- Run for claim C6: two back-to-back full-capacity bookings over [0, 5) and
[5, 10). -/
def c6Ops : List Op :=
  [Op.create ⟨7, some 1, some 0, some 5⟩ [exNL], Op.confirm 1,
   Op.create ⟨7, some 1, some 5, some 10⟩ [exNL], Op.confirm 2]

def c7Env : Env :=
  ⟨[], [⟨100, LUsage.internal, [100]⟩], [⟨50, some 100, none⟩, ⟨51, some 101, none⟩]⟩

def c7Sys : Sys :=
  ⟨[⟨1, 7, some 1, some 0, some 5, BState.draft⟩],
   [⟨1, 1, some 1, 0, some 50, some 51⟩]⟩

def c7wSys : Sys :=
  ⟨[⟨1, 7, some 1, some 0, some 5, BState.draft⟩],
   [⟨1, 1, some 1, 3, some 50, some 51⟩]⟩

def c8Env : Env :=
  ⟨[⟨1, 7, 100, 10, 4⟩], [⟨100, LUsage.internal, [100]⟩], [⟨50, some 100, none⟩]⟩

def c9Sys : Sys := ⟨[⟨1, 7, some 1, some 0, none, BState.draft⟩], []⟩

def c10Sys : Sys := ⟨[⟨1, 7, some 1, some 0, some 10, BState.reserved⟩], []⟩

def c10Picking : Picking := ⟨1, some 1, some RDirection.outbound⟩

/-- Claim C1, counterexample: with the spec's capacity-reducing set (which
includes finished), the invariant fails on the code.  Product 1 has fleet
capacity 10 and booking ceiling 10, and the run c1Ops consists only of
successful operations: the warehouses of exEnv have no internal picking
type, so each confirm takes _create_start_picking's own skip branch and
creates no picking (with picking-typed warehouses the confirm would instead
abort on Picking.create's unknown field names — see exEnvPick and
startPickingRaises — so in this source no reservation ever mutates the
stock quants either way).  At instant 5 the finished line (10 units) and
the newly reserved line (10 units) are both capacity-reducing in the
spec's sense and sum to 20 > 10, because the availability search of
_check_line_availability ignores finished lines. -/
theorem c1_counterexample :
    opsAllSucceed exEnv emptySys c1Ops = true ∧
    specDemandAt (runOps exEnv emptySys c1Ops) 1 5 = 20 ∧
    tlrmFleetCapacity exEnv [1] 7 = 10 ∧
    capScope exEnv 1 7 (some 50) = 10 := by decide

/-- Claim C1 (amended): starting from an empty database, after any sequence
of operations — each applied transactionally, so a failed one changes
nothing — in which every created record lives in one company and one
source-warehouse scope and quantities are nonnegative, the sum of
quantities of the lines in a state the code counts as demand (reserved or
ongoing, not finished) whose half-open interval contains an instant never
exceeds the scope's booking ceiling (on-hand minus stock-reserved, floored
at zero).  Holding the quants fixed across the run is exact for this
source: its only quant-mutating call, action_assign inside picking
creation, is unreachable because the preceding Picking.create raises on
unknown field names, and when the group filters skip the create nothing is
assigned either (see startPickingRaises). -/
theorem c1_capacity_invariant_amended (env : Env) (cid : Nat) (w : Option Nat)
    (ops : List Op) (hops : ∀ op ∈ ops, opOk cid w op = true) (pid : Nat) (t : Int) :
    demandAt (runOps env emptySys ops) pid t ≤ max (capScope env pid cid w) 0 :=
  (goodSys_runOps env cid w ops emptySys hops (goodSys_empty env cid w)).2.2 pid t

/-- Claim C1 witness: the amended invariant evaluated on the concrete run. -/
theorem c1_capacity_invariant_amended_witness :
    demandAt (runOps exEnv emptySys c1Ops) 1 5 ≤ max (capScope exEnv 1 7 (some 50)) 0 :=
  c1_capacity_invariant_amended exEnv 7 (some 50) c1Ops (by decide) 1 5

/-- Claim C2, counterexample: a finished line on the same product, company
and warehouse, whose interval [0, 10) overlaps the candidate's window, is
not matched by the availability search domain and contributes nothing to
the committed sum, although the claim says finished lines are counted. -/
theorem c2_counterexample :
    lineState c2Sys ⟨1, 1, some 1, 10, some 50, some 51⟩ = some BState.finished ∧
    specOverlapsDemand c2Sys 2 1 7 0 10 (some 50) ⟨1, 1, some 1, 10, some 50, some 51⟩ =
      true ∧
    overlapsDemand c2Sys 2 1 7 0 10 (some 50) ⟨1, 1, some 1, 10, some 50, some 51⟩ =
      false ∧
    committedQty c2Sys 2 1 7 0 10 (some 50) = 0 := by decide

/-- Claim C2 (amended): a line is counted as competing demand by the
availability search iff its inherited state is reserved or ongoing; lines
in draft, finished, returned or cancelled contribute nothing (the code has
no planned state at all); the constraint that re-runs the check fires
exactly for reserved, ongoing and finished. -/
theorem c2_demand_states_amended :
    (∀ (s : Sys) (candId pid cid : Nat) (cs ce : Int) (srcWh : Option Nat)
      (other : RLine), overlapsDemand s candId pid cid cs ce srcWh other = true →
        lineState s other = some BState.reserved ∨
          lineState s other = some BState.ongoing) ∧
    (∀ (s : Sys) (candId pid cid : Nat) (cs ce : Int) (srcWh : Option Nat)
      (other : RLine) (st : BState), lineState s other = some st →
        (st = BState.draft ∨ st = BState.finished ∨ st = BState.returned ∨
          st = BState.cancelled) →
        overlapsDemand s candId pid cid cs ce srcWh other = false) ∧
    (∀ st : BState, triggerState st = true ↔
      (st = BState.reserved ∨ st = BState.ongoing ∨ st = BState.finished)) := by
  refine ⟨?_, ?_, ?_⟩
  · intro s candId pid cid cs ce srcWh other h
    unfold overlapsDemand at h
    cases hst : lineState s other with
    | none => rw [hst] at h; simp at h
    | some st =>
      rw [hst] at h
      cases st with
      | reserved => exact Or.inl rfl
      | ongoing => exact Or.inr rfl
      | draft => simp at h
      | finished => simp at h
      | returned => simp at h
      | cancelled => simp at h
  · intro s candId pid cid cs ce srcWh other st hst hbad
    unfold overlapsDemand
    rw [hst]
    rcases hbad with rfl | rfl | rfl | rfl <;> simp
  · intro st
    cases st <;> simp [triggerState]

/-- Claim C2 witness: a concrete reserved line is matched by the search
domain, hence classified reserved-or-ongoing by the amended theorem. -/
theorem c2_demand_states_amended_witness :
    lineState c2wSys ⟨1, 1, some 1, 10, some 50, some 51⟩ = some BState.reserved ∨
      lineState c2wSys ⟨1, 1, some 1, 10, some 50, some 51⟩ = some BState.ongoing :=
  c2_demand_states_amended.1 c2wSys 99 1 7 0 10 (some 50)
    ⟨1, 1, some 1, 10, some 50, some 51⟩ (by decide)

/-- Claim C3, code_bug evidence: action_mark_ongoing on a booking in state
draft (an edge absent from the spec's transition graph) raises nothing and
rewrites the state to ongoing, where the claim — and the repository's own
test_13_wrong_state_transitions_fail — demand an InvalidTransition failure
that leaves the state unchanged.  The source action has no state guard. -/
theorem c3_mark_ongoing_unguarded :
    applyOp exEnv (Op.markOngoing 1) c3Sys =
      Except.ok ⟨[⟨1, 7, some 1, some 0, some 10, BState.ongoing⟩], []⟩ := by decide

/-- Claim C4, counterexample: confirm on a valid draft booking moves it to
reserved (there is no planned state), succeeds although its line's quantity
is 0 rather than strictly positive, and on an over-capacity line it fails
with the insufficient-availability error — so a capacity check is performed
at confirm, contrary to the claim. -/
theorem c4_counterexample :
    (applyOp exEnv (Op.confirm 1) c4Sys =
      Except.ok ⟨[⟨1, 7, some 1, some 0, some 10, BState.reserved⟩],
        [⟨1, 1, some 1, 0, some 50, some 51⟩]⟩) ∧
    (applyOp exEnv (Op.confirm 1) c4BigSys =
      Except.error (Err.availability (CheckErr.insufficient 1 10 0 11))) := by decide

/-- Claim C4 (amended): a successful confirm requires the booking found,
both dates present with start at most end, a project set, and every line
carrying a product and both warehouses and passing the availability check;
it moves the booking to reserved (not planned), re-checking availability
through the constraint in the post-transition state; positivity of line
quantities is not required. -/
theorem c4_confirm_amended (env : Env) (s : Sys) (bid : Nat) (s' : Sys)
    (h : applyOp env (Op.confirm bid) s = Except.ok s') :
    ∃ b ds de, findBooking s bid = some b ∧ b.dateStart = some ds ∧
      b.dateEnd = some de ∧ ds ≤ de ∧ b.projectId ≠ none ∧
      (∀ l ∈ linesOfBooking s bid,
        l.productId ≠ none ∧ l.sourceWarehouseId ≠ none ∧
          l.rentalWarehouseId ≠ none ∧
          checkLineAvailability env s l = Except.ok ()) ∧
      s' = setBookingState s bid BState.reserved ∧
      (∀ l ∈ linesOfBooking s' bid, constraintCheckLine env s' l = Except.ok ()) := by
  obtain ⟨b, ds, de, hb, hds, hde, hdsde, hproj, hv, _, hasc⟩ := actionConfirm_ok h
  obtain ⟨hs', hchecks⟩ := applyStateChange_ok hasc
  subst hs'
  refine ⟨b, ds, de, hb, hds, hde, hdsde, hproj, ?_, rfl, ?_⟩
  · intro l hl
    exact confirmValidateLines_ok_mem hv hl
  · intro l hl
    exact checkLines_ok_mem' hchecks hl

/-- Claim C4 witness: the amended characterization on a concrete successful
confirm. -/
theorem c4_confirm_amended_witness :
    ∃ b ds de, findBooking c4wSys 1 = some b ∧ b.dateStart = some ds ∧
      b.dateEnd = some de ∧ ds ≤ de ∧ b.projectId ≠ none ∧
      (∀ l ∈ linesOfBooking c4wSys 1,
        l.productId ≠ none ∧ l.sourceWarehouseId ≠ none ∧
          l.rentalWarehouseId ≠ none ∧
          checkLineAvailability exEnv c4wSys l = Except.ok ()) ∧
      setBookingState c4wSys 1 BState.reserved =
        setBookingState c4wSys 1 BState.reserved ∧
      (∀ l ∈ linesOfBooking (setBookingState c4wSys 1 BState.reserved) 1,
        constraintCheckLine exEnv (setBookingState c4wSys 1 BState.reserved) l =
          Except.ok ()) :=
  c4_confirm_amended exEnv c4wSys 1 (setBookingState c4wSys 1 BState.reserved) (by decide)

/-- Claim C5, counterexample: the candidate line requests 10 with base
capacity 10 while a finished line holding 10 overlaps its whole window: the
spec-side committed sum (capacity-reducing per the spec, finished included)
plus the request exceeds the capacity, so the claim mandates an
InsufficientAvailability failure, yet the code's check succeeds because its
demand sum ignores finished lines. -/
theorem c5_counterexample :
    checkLineAvailability exEnv c5Sys c5Cand = Except.ok () ∧
    specCommittedQty c5Sys 2 1 7 0 10 (some 50) = 10 ∧
    baseCapacityOf exEnv 1 7 (some 100) = 10 ∧
    baseCapacityOf exEnv 1 7 (some 100) <
      specCommittedQty c5Sys 2 1 7 0 10 (some 50) + c5Cand.quantity := by decide

/-- Claim C5 (amended): for a candidate line with a product, dates, positive
quantity and positive base capacity, the check succeeds iff the committed
quantity of other overlapping reserved-or-ongoing lines of the same
product, company and warehouse scope plus the candidate's own quantity is
at most the base capacity (equality succeeds), and on excess it fails with
the insufficient error reporting exactly the available capacity, the
already-committed quantity and the requested quantity. -/
theorem c5_check_amended (env : Env) (s : Sys) (l : RLine) (b : RBooking)
    (pid : Nat) (ds de : Int)
    (hb : lineBooking s l = some b) (hp : l.productId = some pid)
    (hds : b.dateStart = some ds) (hde : b.dateEnd = some de)
    (hq : 0 < l.quantity)
    (hbase : 0 < baseCapacityOf env pid b.companyId (sourceLocationId env l)) :
    (checkLineAvailability env s l = Except.ok () ↔
      committedQty s l.id pid b.companyId ds de l.sourceWarehouseId + l.quantity ≤
        baseCapacityOf env pid b.companyId (sourceLocationId env l)) ∧
    (baseCapacityOf env pid b.companyId (sourceLocationId env l) <
        committedQty s l.id pid b.companyId ds de l.sourceWarehouseId + l.quantity →
      checkLineAvailability env s l =
        Except.error (CheckErr.insufficient pid
          (baseCapacityOf env pid b.companyId (sourceLocationId env l))
          (committedQty s l.id pid b.companyId ds de l.sourceWarehouseId)
          l.quantity)) := by
  unfold checkLineAvailability
  simp only [hb, hp, hds, hde]
  rw [if_neg (by omega), if_neg (by omega)]
  by_cases hover : committedQty s l.id pid b.companyId ds de l.sourceWarehouseId +
      l.quantity > baseCapacityOf env pid b.companyId (sourceLocationId env l)
  · rw [if_pos hover]
    constructor
    · constructor
      · intro hcontra
        cases hcontra
      · intro hle
        omega
    · intro _
      rfl
  · rw [if_neg hover]
    constructor
    · constructor
      · intro _
        omega
      · intro _
        rfl
    · intro hcontra
      omega

/-- Claim C5 witness: reserving exactly at capacity succeeds on concrete
data (committed 5 plus requested 5 equals base capacity 10). -/
theorem c5_check_amended_witness :
    (checkLineAvailability exEnv c5wSys c5wCand = Except.ok () ↔
      committedQty c5wSys c5wCand.id 1 7 0 10 c5wCand.sourceWarehouseId +
          c5wCand.quantity ≤
        baseCapacityOf exEnv 1 7 (sourceLocationId exEnv c5wCand)) ∧
    (baseCapacityOf exEnv 1 7 (sourceLocationId exEnv c5wCand) <
        committedQty c5wSys c5wCand.id 1 7 0 10 c5wCand.sourceWarehouseId +
          c5wCand.quantity →
      checkLineAvailability exEnv c5wSys c5wCand =
        Except.error (CheckErr.insufficient 1
          (baseCapacityOf exEnv 1 7 (sourceLocationId exEnv c5wCand))
          (committedQty c5wSys c5wCand.id 1 7 0 10 c5wCand.sourceWarehouseId)
          c5wCand.quantity)) :=
  c5_check_amended exEnv c5wSys c5wCand ⟨2, 7, some 1, some 0, some 10, BState.draft⟩
    1 0 10 (by decide) (by decide) (by decide) (by decide) (by decide) (by decide)

def c6wSys : Sys :=
  ⟨[⟨1, 7, some 1, some 0, some 10, BState.reserved⟩],
   [⟨1, 1, some 1, 10, some 50, some 51⟩]⟩

/-- Claim C6: an existing reserved-or-ongoing line of the right product,
company and warehouse scope is matched by the availability search iff its
dates satisfy the half-open rule, existing start before candidate end and
existing end after candidate start; and the concrete back-to-back run of
two full-capacity bookings over [0, 5) and [5, 10) succeeds entirely,
leaving both bookings reserved.  The run is an end-to-end trace of the
source: exEnv's warehouses carry no internal picking type, so each confirm
takes _create_start_picking's skip branch and never reaches Picking.create;
the last conjunct shows the contrast — with picking-typed warehouses
(exEnvPick) the same full-capacity confirm aborts on the create's unknown
field names before any state write. -/
theorem c6_overlap_half_open (s : Sys) (candId pid cid : Nat) (cs ce : Int)
    (srcWh : Option Nat) (other : RLine) (os oe : Int)
    (h1 : other.id ≠ candId) (h2 : other.productId = some pid)
    (h3 : lineCompany s other = some cid)
    (h4 : lineState s other = some BState.reserved ∨
      lineState s other = some BState.ongoing)
    (h5 : lineDateStart s other = some os) (h6 : lineDateEnd s other = some oe)
    (h7 : ∀ wid, srcWh = some wid → other.sourceWarehouseId = some wid) :
    (overlapsDemand s candId pid cid cs ce srcWh other = true ↔ (os < ce ∧ oe > cs)) ∧
    opsAllSucceed exEnv emptySys c6Ops = true ∧
    (findBooking (runOps exEnv emptySys c6Ops) 1).map (·.state) =
      some BState.reserved ∧
    (findBooking (runOps exEnv emptySys c6Ops) 2).map (·.state) =
      some BState.reserved ∧
    applyOp exEnvPick (Op.confirm 1)
        (runOps exEnvPick emptySys [Op.create ⟨7, some 1, some 0, some 5⟩ [exNL]]) =
      Except.error Err.unknownPickingField := by
  refine ⟨⟨?_, ?_⟩, by decide, by decide, by decide, by decide⟩
  · intro h
    unfold overlapsDemand at h
    simp only [h5, h6] at h
    rw [Bool.and_eq_true, Bool.and_eq_true] at h
    obtain ⟨⟨_, e5⟩, _⟩ := h
    rw [Bool.and_eq_true] at e5
    exact ⟨of_decide_eq_true e5.1, of_decide_eq_true e5.2⟩
  · intro hcond
    apply overlapsDemand_intro h1 h2 h3 ?_ ⟨os, oe, h5, h6, hcond.1, hcond.2⟩ h7
    rcases h4 with h | h
    · exact ⟨BState.reserved, h, rfl⟩
    · exact ⟨BState.ongoing, h, rfl⟩

/-- Claim C6 witness: the overlap rule evaluated on a concrete reserved
line against a candidate window [0, 10). -/
theorem c6_overlap_half_open_witness :
    (overlapsDemand c6wSys 99 1 7 0 10 (some 50)
        ⟨1, 1, some 1, 10, some 50, some 51⟩ = true ↔
      ((0 : Int) < 10 ∧ (10 : Int) > 0)) ∧
    opsAllSucceed exEnv emptySys c6Ops = true ∧
    (findBooking (runOps exEnv emptySys c6Ops) 1).map (·.state) =
      some BState.reserved ∧
    (findBooking (runOps exEnv emptySys c6Ops) 2).map (·.state) =
      some BState.reserved ∧
    applyOp exEnvPick (Op.confirm 1)
        (runOps exEnvPick emptySys [Op.create ⟨7, some 1, some 0, some 5⟩ [exNL]]) =
      Except.error Err.unknownPickingField :=
  c6_overlap_half_open c6wSys 99 1 7 0 10 (some 50)
    ⟨1, 1, some 1, 10, some 50, some 51⟩ 0 10 (by decide) (by decide) (by decide)
    (Or.inl (by decide)) (by decide) (by decide)
    (by intro wid hw; injection hw with h9; rw [← h9])

/-- Claim C7, counterexample: product 1 has no stock at all, its capacity
resolves to 0, yet confirming the booking whose only line carries
quantity 0 succeeds and reserves it, because the availability check skips
nonpositive quantities before looking at the capacity; so not every
attempt to reserve a zero-capacity product fails. -/
theorem c7_counterexample :
    tlrmFleetCapacity c7Env [1] 7 = 0 ∧
    baseCapacityOf c7Env 1 7 (some 100) = 0 ∧
    applyOp c7Env (Op.confirm 1) c7Sys =
      Except.ok ⟨[⟨1, 7, some 1, some 0, some 5, BState.reserved⟩],
        [⟨1, 1, some 1, 0, some 50, some 51⟩]⟩ := by decide

/-- Claim C7 (amended): for a line with a product, a strictly positive
quantity and dates present, whenever the base capacity of its scope
resolves to zero or less, the availability check fails with the
no-stock error, an error distinct from the insufficient-availability
constructor, and no confirm of the owning booking can succeed. -/
theorem c7_no_capacity_amended (env : Env) (s : Sys) (bid : Nat) (b : RBooking)
    (l : RLine) (pid : Nat)
    (hb : findBooking s bid = some b) (hl : l ∈ linesOfBooking s bid)
    (hp : l.productId = some pid) (hq : 0 < l.quantity)
    (hds : b.dateStart ≠ none) (hde : b.dateEnd ≠ none)
    (hcap : baseCapacityOf env pid b.companyId (sourceLocationId env l) ≤ 0) :
    checkLineAvailability env s l = Except.error (CheckErr.noStock pid) ∧
    (∀ p a c r, CheckErr.noStock pid ≠ CheckErr.insufficient p a c r) ∧
    (∀ s', applyOp env (Op.confirm bid) s ≠ Except.ok s') := by
  have hlbid : l.bookingId = bid := of_decide_eq_true (List.mem_filter.mp hl).2
  have hlb : lineBooking s l = some b := by
    unfold lineBooking
    rw [hlbid]
    exact hb
  obtain ⟨ds, hds'⟩ := Option.ne_none_iff_exists'.mp hds
  obtain ⟨de, hde'⟩ := Option.ne_none_iff_exists'.mp hde
  have hchk : checkLineAvailability env s l = Except.error (CheckErr.noStock pid) := by
    unfold checkLineAvailability
    simp only [hlb, hp, hds', hde']
    rw [if_neg (by omega), if_pos hcap]
  refine ⟨hchk, ?_, ?_⟩
  · intro p a c r hcontra
    cases hcontra
  · intro s' hok
    obtain ⟨b0, ds0, de0, hb0, _, _, _, _, hv, _, _⟩ := actionConfirm_ok hok
    have hok2 := (confirmValidateLines_ok_mem hv hl).2.2.2
    rw [hchk] at hok2
    cases hok2

/-- Claim C7 witness: the no-stock failure on a concrete positive-quantity
line of a stockless product. -/
theorem c7_no_capacity_amended_witness :
    checkLineAvailability c7Env c7wSys ⟨1, 1, some 1, 3, some 50, some 51⟩ =
      Except.error (CheckErr.noStock 1) ∧
    (∀ p a c r, CheckErr.noStock 1 ≠ CheckErr.insufficient p a c r) ∧
    (∀ s', applyOp c7Env (Op.confirm 1) c7wSys ≠ Except.ok s') :=
  c7_no_capacity_amended c7Env c7wSys 1 ⟨1, 7, some 1, some 0, some 5, BState.draft⟩
    ⟨1, 1, some 1, 3, some 50, some 51⟩ 1 (by decide) (by decide) (by decide)
    (by decide) (by decide) (by decide) (by decide)

theorem sum_map_if_not_mem (vs : List Nat) (p : Nat) (hp : p ∉ vs) (x : Int)
    (g : Nat → Int) :
    (vs.map (fun v => (if p = v then x else 0) + g v)).sum = (vs.map g).sum := by
  induction vs with
  | nil => rfl
  | cons v rest ih =>
    have hpv : p ≠ v := fun hc => hp (hc ▸ List.mem_cons_self v rest)
    have hpr : p ∉ rest := fun hc => hp (List.mem_cons_of_mem _ hc)
    simp only [List.map_cons, List.sum_cons, if_neg hpv, ih hpr]
    omega

theorem sum_map_single_fiber (vs : List Nat) (hnd : vs.Nodup) (p : Nat) (hp : p ∈ vs)
    (x : Int) (g : Nat → Int) :
    (vs.map (fun v => (if p = v then x else 0) + g v)).sum = x + (vs.map g).sum := by
  induction vs with
  | nil => cases hp
  | cons v rest ih =>
    rcases List.mem_cons.mp hp with rfl | hpr
    · have hnot : p ∉ rest := (List.nodup_cons.mp hnd).1
      rw [List.map_cons, List.sum_cons, if_pos rfl,
        sum_map_if_not_mem rest p hnot x g, List.map_cons, List.sum_cons]
      omega
    · have hpv : p ≠ v := by
        intro hc
        exact (List.nodup_cons.mp hnd).1 (hc ▸ hpr)
      simp only [List.map_cons, List.sum_cons, if_neg hpv,
        ih (List.nodup_cons.mp hnd).2 hpr]
      omega

theorem sum_fiber_eq (qs : List Quant) (vs : List Nat) (hnd : vs.Nodup)
    (P : Quant → Bool) (hP : ∀ q ∈ qs, P q = true → q.productId ∈ vs) :
    (vs.map (fun v =>
      ((qs.filter (fun q => P q && decide (q.productId = v))).map (·.quantity)).sum)).sum
      = ((qs.filter P).map (·.quantity)).sum := by
  induction qs with
  | nil => simp
  | cons q qs ih =>
    have hP' : ∀ x ∈ qs, P x = true → x.productId ∈ vs :=
      fun x hx => hP x (List.mem_cons_of_mem _ hx)
    have hih := ih hP'
    by_cases hq : P q = true
    · have hmem := hP q (List.mem_cons_self _ _) hq
      have hmap : vs.map (fun v =>
          (((q :: qs).filter (fun x => P x && decide (x.productId = v))).map
            (·.quantity)).sum)
          = vs.map (fun v => (if q.productId = v then q.quantity else 0) +
              ((qs.filter (fun x => P x && decide (x.productId = v))).map
                (·.quantity)).sum) := by
        apply List.map_congr_left
        intro v _
        rw [List.filter_cons]
        by_cases hv : q.productId = v
        · rw [if_pos (by rw [hq, decide_eq_true hv]; rfl), if_pos hv]
          simp
        · rw [if_neg (by rw [hq, decide_eq_false hv]; simp), if_neg hv]
          simp
      rw [hmap, sum_map_single_fiber vs hnd q.productId hmem q.quantity
        (fun v => ((qs.filter (fun x => P x && decide (x.productId = v))).map
          (·.quantity)).sum), hih, List.filter_cons, if_pos hq]
      simp
    · have hmap : vs.map (fun v =>
          (((q :: qs).filter (fun x => P x && decide (x.productId = v))).map
            (·.quantity)).sum)
          = vs.map (fun v =>
              ((qs.filter (fun x => P x && decide (x.productId = v))).map
                (·.quantity)).sum) := by
        apply List.map_congr_left
        intro v _
        rw [List.filter_cons, if_neg (by
          intro hcontra
          rw [Bool.and_eq_true] at hcontra
          exact hq hcontra.1)]
      rw [hmap, hih, List.filter_cons, if_neg hq]

/-- Claim C8, counterexample: with 10 units on hand of which 4 are
stock-reserved, the displayed fleet capacity is the plain on-hand sum 10,
but the ceiling the availability check books against is 6 — the
reserved quantity IS subtracted there, and the same scoped subtraction is
used whether or not a source location narrows the scope. -/
theorem c8_counterexample :
    tlrmFleetCapacity c8Env [1] 7 = 10 ∧
    baseCapacityOf c8Env 1 7 none = 6 ∧
    baseCapacityOf c8Env 1 7 (some 100) = 6 := by decide

/-- Claim C8 (amended): the computed fleet capacity field equals the plain
sum of on-hand quantity over the template's variants and the company's
internal locations, with nothing subtracted, and it is 0 when no stock
record matches; the booking ceiling of the availability check is instead
on-hand minus stock-reserved quantity over the line's scope. -/
theorem c8_capacity_resolution_amended (env : Env) (variantIds : List Nat)
    (cid : Nat) (hnd : variantIds.Nodup) :
    tlrmFleetCapacity env variantIds cid =
      ((env.quants.filter (quantTlrmScope env variantIds cid)).map (·.quantity)).sum ∧
    ((∀ q ∈ env.quants, quantTlrmScope env variantIds cid q = false) →
      tlrmFleetCapacity env variantIds cid = 0) := by
  have h1 : tlrmFleetCapacity env variantIds cid =
      ((env.quants.filter (quantTlrmScope env variantIds cid)).map (·.quantity)).sum := by
    unfold tlrmFleetCapacity tlrmQtyOfVariant
    apply sum_fiber_eq env.quants variantIds hnd
    intro q hq hscope
    unfold quantTlrmScope at hscope
    rw [Bool.and_eq_true, Bool.and_eq_true] at hscope
    exact of_decide_eq_true hscope.1.1
  refine ⟨h1, ?_⟩
  intro hnone
  rw [h1, List.filter_eq_nil_iff.mpr (fun q hq => by rw [hnone q hq]; simp)]
  rfl

/-- Claim C8 witness: the amended resolution evaluated on the concrete
environment with a stock-reserved quant. -/
theorem c8_capacity_resolution_amended_witness :
    tlrmFleetCapacity c8Env [1] 7 =
      ((c8Env.quants.filter (quantTlrmScope c8Env [1] 7)).map (·.quantity)).sum ∧
    ((∀ q ∈ c8Env.quants, quantTlrmScope c8Env [1] 7 q = false) →
      tlrmFleetCapacity c8Env [1] 7 = 0) :=
  c8_capacity_resolution_amended c8Env [1] 7 (by decide)

/-- Claim C9: operations run inside a transaction, so when any of them
raises any error the database rolls back and both the bookings table and
the lines table are exactly what they were before the action — no partial
line or state mutation survives.  (Within an action the source does mutate
before it can still fail: action_confirm writes the reserved state and only
then the constraint re-checks every line; the roll-back of the enclosing
transaction is what discards that partial work, and stepOp models exactly
that.) -/
theorem c9_failed_op_atomic (env : Env) (op : Op) (s : Sys) (e : Err)
    (h : applyOp env op s = Except.error e) :
    (stepOp env s op).bookings = s.bookings ∧ (stepOp env s op).lines = s.lines := by
  unfold stepOp
  rw [h]
  exact ⟨rfl, rfl⟩

/-- Claim C9 witness: a confirm that fails (missing end date) leaves the
concrete system untouched. -/
theorem c9_failed_op_atomic_witness :
    (stepOp exEnv c9Sys (Op.confirm 1)).bookings = c9Sys.bookings ∧
    (stepOp exEnv c9Sys (Op.confirm 1)).lines = c9Sys.lines :=
  c9_failed_op_atomic exEnv (Op.confirm 1) c9Sys
    (Err.validation VErr.endRequired) (by decide)

/-- Claim C10: completing a picking linked to a booking auto-transitions it:
an out picking done while the booking is reserved makes it ongoing, an in
picking done while it is ongoing or finished makes it returned, and in
every other case (including a picking with no linked booking) the booking's
record is unchanged. -/
theorem c10_picking_done_transitions (s : Sys) (p : Picking) :
    (p.tlrmBookingId = none → pickingActionDone s p = s) ∧
    (∀ bid b, p.tlrmBookingId = some bid → findBooking s bid = some b →
      ((p.tlrmDirection = some RDirection.outbound → b.state = BState.reserved →
        findBooking (pickingActionDone s p) bid =
          some { b with state := BState.ongoing }) ∧
      (p.tlrmDirection = some RDirection.inbound →
        (b.state = BState.ongoing ∨ b.state = BState.finished) →
        findBooking (pickingActionDone s p) bid =
          some { b with state := BState.returned }) ∧
      (¬(p.tlrmDirection = some RDirection.outbound ∧ b.state = BState.reserved) →
        ¬(p.tlrmDirection = some RDirection.inbound ∧
          (b.state = BState.ongoing ∨ b.state = BState.finished)) →
        findBooking (pickingActionDone s p) bid = some b))) := by
  constructor
  · intro hnone
    unfold pickingActionDone
    rw [hnone]
  · intro bid b hbid hb
    have hpd : pickingActionDone s p =
        setBookingState s bid (doneBookingState p.tlrmDirection b.state) := by
      unfold pickingActionDone
      simp only [hbid, hb]
    have hid : b.id = bid := findBooking_id hb
    have hfind : ∀ ns : BState,
        findBooking (setBookingState s bid ns) bid = some { b with state := ns } := by
      intro ns
      rw [findBooking_setState, hb]
      simp [hid]
    refine ⟨?_, ?_, ?_⟩
    · intro hdir hst
      rw [hpd]
      have hdbs : doneBookingState p.tlrmDirection b.state = BState.ongoing := by
        unfold doneBookingState
        rw [if_pos hdir, if_pos hst]
      rw [hdbs]
      exact hfind BState.ongoing
    · intro hdir hst
      rw [hpd]
      have hdbs : doneBookingState p.tlrmDirection b.state = BState.returned := by
        unfold doneBookingState
        rw [if_neg (by rw [hdir]; intro hcontra; cases hcontra),
          if_pos hdir, if_pos hst]
      rw [hdbs]
      exact hfind BState.returned
    · intro hno1 hno2
      rw [hpd]
      have hdbs : doneBookingState p.tlrmDirection b.state = b.state := by
        unfold doneBookingState
        by_cases hdir : p.tlrmDirection = some RDirection.outbound
        · rw [if_pos hdir, if_neg (fun hst => hno1 ⟨hdir, hst⟩)]
        · rw [if_neg hdir]
          by_cases hdir2 : p.tlrmDirection = some RDirection.inbound
          · rw [if_pos hdir2, if_neg (fun hst => hno2 ⟨hdir2, hst⟩)]
          · rw [if_neg hdir2]
      rw [hdbs]
      have := hfind b.state
      rw [show ({ b with state := b.state } : RBooking) = b from rfl] at this
      exact this

/-- Claim C10 witness: an out picking done on a concrete reserved booking
makes it ongoing. -/
theorem c10_picking_done_transitions_witness :
    findBooking (pickingActionDone c10Sys c10Picking) 1 =
      some ⟨1, 7, some 1, some 0, some 10, BState.ongoing⟩ :=
  ((c10_picking_done_transitions c10Sys c10Picking).2 1
    ⟨1, 7, some 1, some 0, some 10, BState.reserved⟩ (by decide) (by decide)).1
    (by decide) (by decide)

end TLRental
